import Mathlib

/-!
Verification of the approval-gate core of `function-approve` (`fn.go`).

The Go core operates on dynamically-typed documents (`map[string]interface{}`
holding JSON-decoded data).  We embed the value domain of Go's `interface{}`
as seen by this program: the JSON-representable values (strings, numbers,
booleans, null, nested mappings, nested sequences) plus opaque values that
`encoding/json.Marshal` rejects (channels, functions, ...), which the spec's
Content Hasher section explicitly keeps in scope (serialization failure is
"non-fatal ... return an empty-string hash").  The `unsupported` constructor
carries a tag so that distinct non-serializable Go values stay distinct.

Numbers are modelled as integers (the documents this function receives come
from JSON/protobuf structs; integral values marshal as plain decimal, which
is the only number behaviour the claims touch).
-/

/-- A Go `interface{}` value as handled by `fn.go`: JSON-representable data
plus opaque non-serializable values. -/
inductive Value where
  | str : String → Value
  | num : Int → Value
  | bool : Bool → Value
  | null : Value
  | obj : List (String × Value) → Value
  | arr : List Value → Value
  | unsupported : String → Value

mutual

/-- Structural equality test on `Value` (Go `==`-style deep equality). -/
def Value.beq : Value → Value → Bool
  | .str a, .str b => a == b
  | .num a, .num b => a == b
  | .bool a, .bool b => a == b
  | .null, .null => true
  | .obj a, .obj b => Value.beqPairs a b
  | .arr a, .arr b => Value.beqList a b
  | .unsupported a, .unsupported b => a == b
  | _, _ => false

/-- Pointwise `Value.beq` on lists. -/
def Value.beqList : List Value → List Value → Bool
  | [], [] => true
  | x :: xs, y :: ys => Value.beq x y && Value.beqList xs ys
  | _, _ => false

/-- Pointwise `Value.beq` on key-value pair lists. -/
def Value.beqPairs : List (String × Value) → List (String × Value) → Bool
  | [], [] => true
  | (k1, v1) :: t1, (k2, v2) :: t2 =>
    k1 == k2 && (Value.beq v1 v2 && Value.beqPairs t1 t2)
  | _, _ => false

end

mutual

theorem Value.beq_iff : ∀ (a b : Value), (Value.beq a b = true) ↔ a = b
  | .str _, .str _ => by simp [Value.beq]
  | .num _, .num _ => by simp [Value.beq]
  | .bool _, .bool _ => by simp [Value.beq]
  | .null, .null => by simp [Value.beq]
  | .obj a, .obj b => by
    simp only [Value.beq, Value.obj.injEq]
    exact Value.beqPairs_iff a b
  | .arr a, .arr b => by
    simp only [Value.beq, Value.arr.injEq]
    exact Value.beqList_iff a b
  | .unsupported _, .unsupported _ => by simp [Value.beq]
  | .str _, .num _ => by simp [Value.beq]
  | .str _, .bool _ => by simp [Value.beq]
  | .str _, .null => by simp [Value.beq]
  | .str _, .obj _ => by simp [Value.beq]
  | .str _, .arr _ => by simp [Value.beq]
  | .str _, .unsupported _ => by simp [Value.beq]
  | .num _, .str _ => by simp [Value.beq]
  | .num _, .bool _ => by simp [Value.beq]
  | .num _, .null => by simp [Value.beq]
  | .num _, .obj _ => by simp [Value.beq]
  | .num _, .arr _ => by simp [Value.beq]
  | .num _, .unsupported _ => by simp [Value.beq]
  | .bool _, .str _ => by simp [Value.beq]
  | .bool _, .num _ => by simp [Value.beq]
  | .bool _, .null => by simp [Value.beq]
  | .bool _, .obj _ => by simp [Value.beq]
  | .bool _, .arr _ => by simp [Value.beq]
  | .bool _, .unsupported _ => by simp [Value.beq]
  | .null, .str _ => by simp [Value.beq]
  | .null, .num _ => by simp [Value.beq]
  | .null, .bool _ => by simp [Value.beq]
  | .null, .obj _ => by simp [Value.beq]
  | .null, .arr _ => by simp [Value.beq]
  | .null, .unsupported _ => by simp [Value.beq]
  | .obj _, .str _ => by simp [Value.beq]
  | .obj _, .num _ => by simp [Value.beq]
  | .obj _, .bool _ => by simp [Value.beq]
  | .obj _, .null => by simp [Value.beq]
  | .obj _, .arr _ => by simp [Value.beq]
  | .obj _, .unsupported _ => by simp [Value.beq]
  | .arr _, .str _ => by simp [Value.beq]
  | .arr _, .num _ => by simp [Value.beq]
  | .arr _, .bool _ => by simp [Value.beq]
  | .arr _, .null => by simp [Value.beq]
  | .arr _, .obj _ => by simp [Value.beq]
  | .arr _, .unsupported _ => by simp [Value.beq]
  | .unsupported _, .str _ => by simp [Value.beq]
  | .unsupported _, .num _ => by simp [Value.beq]
  | .unsupported _, .bool _ => by simp [Value.beq]
  | .unsupported _, .null => by simp [Value.beq]
  | .unsupported _, .obj _ => by simp [Value.beq]
  | .unsupported _, .arr _ => by simp [Value.beq]

theorem Value.beqList_iff : ∀ (a b : List Value), (Value.beqList a b = true) ↔ a = b
  | [], [] => by simp [Value.beqList]
  | [], _ :: _ => by simp [Value.beqList]
  | _ :: _, [] => by simp [Value.beqList]
  | x :: xs, y :: ys => by
    simp only [Value.beqList, Bool.and_eq_true, List.cons.injEq]
    exact and_congr (Value.beq_iff x y) (Value.beqList_iff xs ys)

theorem Value.beqPairs_iff : ∀ (a b : List (String × Value)),
    (Value.beqPairs a b = true) ↔ a = b
  | [], [] => by simp [Value.beqPairs]
  | [], _ :: _ => by simp [Value.beqPairs]
  | _ :: _, [] => by simp [Value.beqPairs]
  | (k1, v1) :: t1, (k2, v2) :: t2 => by
    simp only [Value.beqPairs, Bool.and_eq_true, List.cons.injEq, Prod.mk.injEq,
      beq_iff_eq]
    rw [Value.beq_iff v1 v2, Value.beqPairs_iff t1 t2]
    exact and_assoc.symm

end

instance : DecidableEq Value := fun a b => decidable_of_iff _ (Value.beq_iff a b)

deriving instance DecidableEq for Except

/-- A Go `map[string]interface{}` (keys are unique in a real Go map). -/
abbrev JMap := List (String × Value)

/-- Go map insert `m[k] = v`: replaces an existing key, otherwise adds it. -/
def mapInsert : JMap → String → Value → JMap
  | [], k, v => [(k, v)]
  | (k', v') :: t, k, v =>
    if k' = k then (k, v) :: t else (k', v') :: mapInsert t k v

/-- Go `strings.Split(s, ".")`, written by structural recursion over the
characters so that it evaluates inside the kernel (the split is on the
single character `.`, matching every use in fn.go). -/
def splitDotAux : List Char → List Char → List String
  | [], acc => [String.mk acc.reverse]
  | c :: t, acc =>
    if c = '.' then String.mk acc.reverse :: splitDotAux t [] else splitDotAux t (c :: acc)

/-- Split a string at every dot (`strings.Split(s, ".")`). -/
def splitDot (s : String) : List String := splitDotAux s.data []

/-- `ParseNestedKey` (fn.go:301): split a dot-path into its non-empty
segments; an all-empty split is the error "invalid key". -/
def ParseNestedKey (key : String) : Except String (List String) :=
  let parts := (splitDot key).filter (fun p => p ≠ "")
  if parts = [] then .error "invalid key" else .ok parts

/-- Core loop of `GetNestedValue` (fn.go:318): walk the parsed segments,
descending only through mappings; a missing key or a non-mapping on the way
is "not found" (`none`), not an error. -/
def getParts : Value → List String → Option Value
  | v, [] => some v
  | .obj m, k :: t =>
    match List.lookup k m with
    | some v => getParts v t
    | none => none
  | _, _ :: _ => none

/-- `GetNestedValue` (fn.go:318): returns an error only when the key parses
to no segments; otherwise `some v` when found, `none` when absent. -/
def GetNestedValue (data : JMap) (key : String) : Except String (Option Value) := do
  let parts ← ParseNestedKey key
  .ok (getParts (.obj data) parts)

/-- Core loop of `SetNestedValue` (fn.go:343) on parsed segments.  The Go
code mutates nested maps in place, auto-vivifying missing intermediate maps
and failing when an existing intermediate value is not a map.  A failure can
only happen while descending through values that already existed (once a
segment has been vivified every deeper segment is fresh and cannot clash),
so on failure the Go root map is unmodified and this functional rendering is
observationally equivalent. -/
def setParts : JMap → List String → Value → Except String JMap
  | m, [], _ => .ok m
  | m, [k], v => .ok (mapInsert m k v)
  | m, k :: k2 :: rest, v =>
    match List.lookup k m with
    | some (.obj sub) =>
      (setParts sub (k2 :: rest) v).map (fun sub' => mapInsert m k (.obj sub'))
    | some _ => .error ("key \"" ++ k ++ "\" exists but is not a map")
    | none =>
      (setParts [] (k2 :: rest) v).map (fun sub' => mapInsert m k (.obj sub'))

/-- `SetNestedValue` (fn.go:343). -/
def SetNestedValue (root : JMap) (key : String) (value : Value) :
    Except String JMap := do
  let parts ← ParseNestedKey key
  setParts root parts value

/-- Go `strings.SplitN(s, ".", 2)` as used on `DataField` (fn.go:385). -/
def splitN2 (s : String) : List String :=
  match splitDot s with
  | [] => [s]
  | [x] => [x]
  | x :: rest => [x, String.intercalate "." rest]

/-- Go `strings.TrimPrefix(s, "status.")` as used on the configured status
field paths (fn.go:438, 480, 489, 519). -/
def dropStatusDot (s : String) : String :=
  if List.isPrefixOf "status.".data s.data then String.mk (s.data.drop 7) else s

/-! ## Content hasher: Go `encoding/json` serialization and SHA-256

`calculateHash` (fn.go:415) runs `json.Marshal` on the extracted value and
hex-encodes the SHA-256 of the resulting bytes.  `encoding/json` serializes
Go maps with keys in sorted order, escapes `"` `\` control characters and
(by default) `<` `>` `&` in strings, and fails — making `Marshal` return an
error for the whole value — when any nested value is non-serializable. -/

/-- Lowercase hex digit. -/
def hexDigit (n : Nat) : Char :=
  if n < 10 then Char.ofNat (48 + n) else Char.ofNat (87 + n)

/-- Go `encoding/json` escaping of a single character (default
`SetEscapeHTML(true)` behaviour of `json.Marshal`). -/
def escapeChar (c : Char) : String :=
  if c = '"' then "\\\""
  else if c = '\\' then "\\\\"
  else if c = '\n' then "\\n"
  else if c = '\r' then "\\r"
  else if c = '\t' then "\\t"
  else if c = '<' then "\\u003c"
  else if c = '>' then "\\u003e"
  else if c = '&' then "\\u0026"
  else if c = Char.ofNat 0x2028 then "\\u2028"
  else if c = Char.ofNat 0x2029 then "\\u2029"
  else if c.toNat < 0x20 then
    "\\u00" ++ String.singleton (hexDigit (c.toNat / 16)) ++
      String.singleton (hexDigit (c.toNat % 16))
  else String.singleton c

/-- JSON string literal for `s`, as `encoding/json` renders it. -/
def quoteJSON (s : String) : String :=
  "\"" ++ String.join (s.data.map escapeChar) ++ "\""

/-- Insert a rendered key-value pair into a list sorted by key. -/
def insertByKey (p : String × String) : List (String × String) → List (String × String)
  | [] => [p]
  | q :: t => if p.1 ≤ q.1 then p :: q :: t else q :: insertByKey p t

/-- Sort rendered key-value pairs by key (Go serializes map keys in sorted
order; Go map keys are distinct, so any sorted rearrangement is the one the
source produces). -/
def sortByKey : List (String × String) → List (String × String)
  | [] => []
  | p :: t => insertByKey p (sortByKey t)

/-- Render sorted key-value pairs as the inside of a JSON object. -/
def joinPairs (ps : List (String × String)) : String :=
  String.intercalate "," (ps.map (fun p => quoteJSON p.1 ++ ":" ++ p.2))

mutual

/-- `json.Marshal` on a document value: `none` is a serialization error. -/
def marshalValue : Value → Option String
  | .null => some "null"
  | .bool b => some (if b then "true" else "false")
  | .num n => some (toString n)
  | .str s => some (quoteJSON s)
  | .arr xs => (marshalArr xs).map (fun b => "[" ++ b ++ "]")
  | .obj kvs => (marshalPairs kvs).map (fun ps => "\x7b" ++ joinPairs (sortByKey ps) ++ "\x7d")
  | .unsupported _ => none

/-- Marshal the elements of a JSON array (order preserved). -/
def marshalArr : List Value → Option String
  | [] => some ""
  | [x] => marshalValue x
  | x :: y :: t => do
    let hd ← marshalValue x
    let tl ← marshalArr (y :: t)
    pure (hd ++ "," ++ tl)

/-- Marshal every value of a key-value list, keeping keys. -/
def marshalPairs : List (String × Value) → Option (List (String × String))
  | [] => some []
  | (k, v) :: t => do
    let s ← marshalValue v
    let rest ← marshalPairs t
    pure ((k, s) :: rest)

end

/-- UTF-8 bytes of one character. -/
def charUTF8 (c : Char) : List Nat :=
  let n := c.toNat
  if n < 0x80 then [n]
  else if n < 0x800 then [0xC0 + n / 64, 0x80 + n % 64]
  else if n < 0x10000 then
    [0xE0 + n / 4096, 0x80 + (n / 64) % 64, 0x80 + n % 64]
  else
    [0xF0 + n / 262144, 0x80 + (n / 4096) % 64, 0x80 + (n / 64) % 64, 0x80 + n % 64]

/-- UTF-8 bytes of a string (the bytes Go hashes). -/
def utf8Bytes (s : String) : List Nat :=
  (s.data.map charUTF8).flatten

/-- Truncate to a 32-bit word. -/
def w32 (x : Nat) : Nat := x % 4294967296

/-- 32-bit right rotation. -/
def rotr32 (n x : Nat) : Nat := w32 ((x >>> n) ||| (x <<< (32 - n)))

/-- SHA-256 `Ch`. -/
def shCh (x y z : Nat) : Nat := (x &&& y) ^^^ ((4294967295 ^^^ x) &&& z)

/-- SHA-256 `Maj`. -/
def shMaj (x y z : Nat) : Nat := (x &&& y) ^^^ (x &&& z) ^^^ (y &&& z)

/-- SHA-256 `Σ0`. -/
def bigSigma0 (x : Nat) : Nat := rotr32 2 x ^^^ rotr32 13 x ^^^ rotr32 22 x

/-- SHA-256 `Σ1`. -/
def bigSigma1 (x : Nat) : Nat := rotr32 6 x ^^^ rotr32 11 x ^^^ rotr32 25 x

/-- SHA-256 `σ0`. -/
def smallSigma0 (x : Nat) : Nat := rotr32 7 x ^^^ rotr32 18 x ^^^ (x >>> 3)

/-- SHA-256 `σ1`. -/
def smallSigma1 (x : Nat) : Nat := rotr32 17 x ^^^ rotr32 19 x ^^^ (x >>> 10)

/-- SHA-256 round constants (FIPS 180-4, in decimal). -/
def shaK : List Nat :=
  [1116352408, 1899447441, 3049323471, 3921009573, 961987163,
   1508970993, 2453635748, 2870763221, 3624381080, 310598401,
   607225278, 1426881987, 1925078388, 2162078206, 2614888103,
   3248222580, 3835390401, 4022224774, 264347078, 604807628,
   770255983, 1249150122, 1555081692, 1996064986, 2554220882,
   2821834349, 2952996808, 3210313671, 3336571891, 3584528711,
   113926993, 338241895, 666307205, 773529912, 1294757372,
   1396182291, 1695183700, 1986661051, 2177026350, 2456956037,
   2730485921, 2820302411, 3259730800, 3345764771, 3516065817,
   3600352804, 4094571909, 275423344, 430227734, 506948616,
   659060556, 883997877, 958139571, 1322822218, 1537002063,
   1747873779, 1955562222, 2024104815, 2227730452, 2361852424,
   2428436474, 2756734187, 3204031479, 3329325298]

/-- SHA-256 initial hash state (FIPS 180-4, in decimal). -/
def shaInit : List Nat :=
  [1779033703, 3144134277, 1013904242, 2773480762, 1359893119,
   2600822924, 528734635, 1541459225]

/-- Word at index `i` (0 when out of range). -/
def wordAt (l : List Nat) (i : Nat) : Nat := l.getD i 0

/-- Extend a 16-word block by `fuel` scheduled words. -/
def extendW : Nat → List Nat → List Nat
  | 0, w => w
  | fuel + 1, w =>
    let i := w.length
    extendW fuel
      (w ++ [w32 (smallSigma1 (wordAt w (i - 2)) + wordAt w (i - 7) +
        smallSigma0 (wordAt w (i - 15)) + wordAt w (i - 16))])

/-- One SHA-256 round on the working state `[a,b,c,d,e,f,g,h]`. -/
def shaRound (s : List Nat) (kw : Nat) : List Nat :=
  match s with
  | [a, b, c, d, e, f, g, h] =>
    let t1 := w32 (h + bigSigma1 e + shCh e f g + kw)
    let t2 := w32 (bigSigma0 a + shMaj a b c)
    [w32 (t1 + t2), a, b, c, w32 (d + t1), e, f, g]
  | s => s

/-- SHA-256 compression of one 16-word block into the hash state. -/
def compressBlock (h : List Nat) (block : List Nat) : List Nat :=
  let w := extendW 48 block
  let kw := List.zipWith (fun a b => w32 (a + b)) shaK w
  let final := kw.foldl shaRound h
  List.zipWith (fun x y => w32 (x + y)) h final

/-- Big-endian 8-byte encoding of `n`. -/
def be8 (n : Nat) : List Nat :=
  (List.range 8).map (fun i => (n >>> ((7 - i) * 8)) % 256)

/-- SHA-256 padding of a byte message. -/
def padMsg (msg : List Nat) : List Nat :=
  let len := msg.length
  let zeros := (64 + 56 - ((len + 1) % 64)) % 64
  msg ++ [0x80] ++ List.replicate zeros 0 ++ be8 (len * 8)

/-- Convert consecutive 4-byte groups to big-endian 32-bit words. -/
def toWords : List Nat → List Nat
  | b0 :: b1 :: b2 :: b3 :: t =>
    (b0 * 16777216 + b1 * 65536 + b2 * 256 + b3) :: toWords t
  | _ => []

/-- Split a byte message into 16-word blocks (`fuel` bounds the recursion
and is always instantiated with the message length, which suffices because
every step consumes 64 bytes). -/
def toBlocksFuel : Nat → List Nat → List (List Nat)
  | 0, _ => []
  | _, [] => []
  | fuel + 1, l => toWords (l.take 64) :: toBlocksFuel fuel (l.drop 64)

/-- Split a padded byte message into 16-word blocks. -/
def toBlocks (l : List Nat) : List (List Nat) :=
  toBlocksFuel l.length l

/-- 8-hex-digit rendering of a 32-bit word. -/
def wordHex (n : Nat) : String :=
  String.mk ((List.range 8).map (fun i => hexDigit ((n >>> ((7 - i) * 4)) % 16)))

/-- Lowercase-hex SHA-256 of a byte message. -/
def sha256hex (msg : List Nat) : String :=
  String.join (((toBlocks (padMsg msg)).foldl compressBlock shaInit).map wordHex)

/-- `calculateHash` (fn.go:415): marshal the value to JSON and hash it;
a serialization error is swallowed and yields the empty-string hash. -/
def calculateHash (data : Value) : String :=
  match marshalValue data with
  | none => ""
  | some jsonData => sha256hex (utf8Bytes jsonData)

/-! ## Request, response and function input

`RunFunction` reads the observed and the desired composite resource from the
request and produces a response carrying a desired composite resource,
condition records, results and the preserved context.  Every call to
`request.GetObservedCompositeResource` / `request.GetDesiredCompositeResource`
unmarshals a fresh copy out of the request protobuf, so later mutations of
one copy never affect the request; the functional model below re-reads
`req.oxr` / `req.dxr` exactly where the Go code re-fetches them.  Transport
concerns (proto parsing failures, `request.GetInput` failures) are the
out-of-scope adaptation layer and are not modelled.  The only results this
function ever emits are fatal ones (`response.Fatal`), so `results` is the
list of fatal messages.  Some fatal messages wrap errors produced inside the
resource SDK whose text the model leaves out; messages built from errors of
the modelled code are reproduced verbatim. -/

/-- A run request: observed composite, desired composite, context. -/
structure Req where
  oxr : JMap
  dxr : JMap
  ctx : Option Value
deriving DecidableEq

/-- A condition record set by `response.ConditionTrue` / `ConditionFalse`
(all conditions in this function target composite and claim). -/
structure Condition where
  typ : String
  status : Bool
  reason : String
  message : String
deriving DecidableEq

/-- The mutable response state threaded through the function. -/
structure Rsp where
  desired : Option JMap
  conditions : List Condition
  results : List String
  ctx : Option Value
deriving DecidableEq

/-- `response.To(req, ttl)`: the initial response carries over the request's
desired state and context. -/
def initRsp (req : Req) : Rsp :=
  { desired := some req.dxr, conditions := [], results := [], ctx := req.ctx }

/-- `response.Fatal`: append a fatal result. -/
def addFatal (rsp : Rsp) (msg : String) : Rsp :=
  { rsp with results := rsp.results ++ [msg] }

/-- `response.ConditionTrue/ConditionFalse ... WithMessage`: append a
condition. -/
def addCondition (rsp : Rsp) (c : Condition) : Rsp :=
  { rsp with conditions := rsp.conditions ++ [c] }

/-- The function input (`v1beta1.Input`), fields as `fn.go` uses them;
optional fields are `none` when absent from the wire input. -/
structure Input where
  DataField : String
  ApprovalField : Option String := none
  CurrentHashField : Option String := none
  DetailedCondition : Option Bool := none
  ApprovalMessage : Option String := none
deriving DecidableEq

/-- The input after `parseInput` (fn.go:152) applied its defaults; the
approval message keeps its optionality (its default lives in
`handleUnapprovedChanges`). -/
structure Config where
  DataField : String
  ApprovalField : String
  CurrentHashField : String
  DetailedCondition : Bool
  ApprovalMessage : Option String
deriving DecidableEq

/-- `parseInput` (fn.go:152): fill in the default approval field, current
hash field and detailed-condition flag. -/
def parseInput (inp : Input) : Config :=
  { DataField := inp.DataField
    ApprovalField := inp.ApprovalField.getD "status.approved"
    CurrentHashField := inp.CurrentHashField.getD "status.currentHash"
    DetailedCondition := inp.DetailedCondition.getD true
    ApprovalMessage := inp.ApprovalMessage }

/-! ## Document accessors of the resource SDK used by fn.go -/

/-- `GetValueInto(k, &map)`: succeeds on a mapping; JSON `null` unmarshals
into an (empty) map without error; anything else (absent key, non-mapping
value) is an error, rendered `none`. -/
def getMapField (m : JMap) (k : String) : Option JMap :=
  match List.lookup k m with
  | some (.obj mm) => some mm
  | some .null => some []
  | _ => none

/-- String field accessor backing `GetKind` / `GetAPIVersion` (empty string
when absent or not a string). -/
def getStr (m : JMap) (k : String) : String :=
  match List.lookup k m with
  | some (.str s) => s
  | _ => ""

/-- `oxr.Resource.GetKind()`. -/
def getKind (m : JMap) : String := getStr m "kind"

/-- `oxr.Resource.GetAPIVersion()`. -/
def getAPIVersion (m : JMap) : String := getStr m "apiVersion"

/-- `oxr.Resource.GetName()` (reads `metadata.name`). -/
def getName (m : JMap) : String :=
  match List.lookup "metadata" m with
  | some (.obj mm) => getStr mm "name"
  | _ => ""

/-- `dxr.Resource.SetName` (writes `metadata.name`, creating `metadata`). -/
def setName (m : JMap) (n : String) : JMap :=
  let md := match List.lookup "metadata" m with
    | some (.obj mm) => mm
    | _ => []
  mapInsert m "metadata" (.obj (mapInsert md "name" (.str n)))

/-! ## The fn.go pipeline -/

/-- First half of `initializeAndCopyData` (fn.go:226-230): when the desired
XR has no kind yet, initialize apiVersion/kind/name from the observed XR. -/
def initializeXRMeta (oxr dxr : JMap) : JMap :=
  if getKind dxr = "" then
    setName (mapInsert (mapInsert dxr "apiVersion" (.str (getAPIVersion oxr)))
      "kind" (.str (getKind oxr))) (getName oxr)
  else dxr

/-- `initializeAndCopyData` (fn.go:224): metadata initialization, then copy
the observed spec over the desired spec whenever the observed spec is a
non-empty mapping. -/
def initializeAndCopyData (oxr dxr : JMap) : JMap :=
  match getMapField oxr "spec" with
  | some s =>
    if s ≠ [] then mapInsert (initializeXRMeta oxr dxr) "spec" (.obj s)
    else initializeXRMeta oxr dxr
  | none => initializeXRMeta oxr dxr

/-- `getStatusFromResources` (fn.go:242): prefer a non-empty status of the
desired XR (only consulted when it has a kind); otherwise fall back to the
observed XR's status, or an empty map. -/
def getStatusFromResources (oxr dxr : JMap) : JMap :=
  let fromDxr :=
    if getKind dxr ≠ "" then
      match getMapField dxr "status" with
      | some s => if s ≠ [] then some s else none
      | none => none
    else none
  match fromDxr with
  | some s => s
  | none => (getMapField oxr "status").getD []

/-- `getXRAndStatus` (fn.go:192): fresh observed/desired copies, metadata
initialization and spec copy, then the merged status. -/
def getXRAndStatus (req : Req) : JMap × JMap :=
  (getStatusFromResources req.oxr (initializeAndCopyData req.oxr req.dxr),
   initializeAndCopyData req.oxr req.dxr)

/-- `propagateDesiredXR` (fn.go:264): write the merged status back into the
(initialized) desired XR when non-empty and store it in the response. -/
def propagateDesiredXR (req : Req) (rsp : Rsp) : Rsp :=
  { rsp with
    desired :=
      some
        (if (getXRAndStatus req).1 ≠ [] then
          mapInsert (getXRAndStatus req).2 "status" (.obj (getXRAndStatus req).1)
        else (getXRAndStatus req).2) }

/-- `preserveContext` (fn.go:290). -/
def preserveContext (req : Req) (rsp : Rsp) : Rsp :=
  match req.ctx with
  | some c => { rsp with ctx := some c }
  | none => rsp

/-- `initializeResponse` (fn.go:179). -/
def initializeResponse (req : Req) (rsp : Rsp) : Rsp :=
  preserveContext req (propagateDesiredXR req rsp)

/-- `extractDataToHash` (fn.go:376): split `DataField` once at the first
dot into section and field, read the section as a mapping from the desired
XR of the request, then look the field up inside it; every failure is
fatal. -/
def extractDataToHash (req : Req) (cfg : Config) (rsp : Rsp) :
    Option Value × Rsp :=
  match splitN2 cfg.DataField with
  | [sec, fld] =>
    (match getMapField req.dxr sec with
     | none => (none, addFatal rsp ("cannot get " ++ sec ++ " from desired XR"))
     | some sectionData =>
       match GetNestedValue sectionData fld with
       | .error e =>
         (none, addFatal rsp ("error accessing field " ++ fld ++ ": " ++ e))
       | .ok none =>
         (none, addFatal rsp
           ("field " ++ sec ++ "." ++ fld ++ " not found in resource"))
       | .ok (some data) => (some data, rsp))
  | _ =>
    (none, addFatal rsp ("invalid DataField format: " ++ cfg.DataField ++
      ", expected section.field (e.g. spec.resources)"))

/-- `getCurrentHash` (fn.go:430): the stored (previously approved) hash.
Absence is not an error and reads as `""`; a present non-string is fatal. -/
def getCurrentHash (req : Req) (cfg : Config) (rsp : Rsp) :
    Option String × Rsp :=
  match GetNestedValue (getXRAndStatus req).1 (dropStatusDot cfg.CurrentHashField) with
  | .error e =>
    (none, addFatal rsp ("error accessing current hash field " ++
      dropStatusDot cfg.CurrentHashField ++ ": " ++ e))
  | .ok none => (some "", rsp)
  | .ok (some (.str s)) => (some s, rsp)
  | .ok (some _) =>
    (none, addFatal rsp ("current hash field " ++
      dropStatusDot cfg.CurrentHashField ++ " is not a string"))

/-- `checkApprovalStatus` (fn.go:511): the approval flag.  Absence is not an
error and reads as `false`; a present non-boolean is fatal. -/
def checkApprovalStatus (req : Req) (cfg : Config) (rsp : Rsp) :
    Option Bool × Rsp :=
  match GetNestedValue (getXRAndStatus req).1 (dropStatusDot cfg.ApprovalField) with
  | .error e =>
    (none, addFatal rsp ("error accessing approval field " ++
      dropStatusDot cfg.ApprovalField ++ ": " ++ e))
  | .ok none => (some false, rsp)
  | .ok (some (.bool b)) => (some b, rsp)
  | .ok (some _) =>
    (none, addFatal rsp ("approval field " ++
      dropStatusDot cfg.ApprovalField ++ " is not a boolean"))

/-- `processHashingAndApproval` (fn.go:77): extract, hash, read stored hash,
read approval flag; the tuple is `(newHash, currentHash, approved)`. -/
def processHashingAndApproval (req : Req) (cfg : Config) (rsp : Rsp) :
    Option (String × String × Bool) × Rsp :=
  match extractDataToHash req cfg rsp with
  | (none, rsp') => (none, rsp')
  | (some dataToHash, rsp') =>
    let newHash := calculateHash dataToHash
    match getCurrentHash req cfg rsp' with
    | (none, rsp'') => (none, rsp'')
    | (some currentHash, rsp'') =>
      match checkApprovalStatus req cfg rsp'' with
      | (none, rsp3) => (none, rsp3)
      | (some approved, rsp3) => (some (newHash, currentHash, approved), rsp3)

/-- `needsApproval` (fn.go:103): halt exactly when not approved and the
stored hash is empty or differs from the new hash. -/
def needsApproval (approved : Bool) (currentHash newHash : String) : Bool :=
  !approved && (currentHash == "" || currentHash != newHash)

/-- `handleUnapprovedChanges` (fn.go:109): emit the `ApprovalRequired`
condition and a fatal result, both carrying the configured message extended
with hash details when `DetailedCondition` is set. -/
def handleUnapprovedChanges (cfg : Config) (rsp : Rsp)
    (currentHash newHash : String) : Rsp :=
  let msg := cfg.ApprovalMessage.getD "Changes detected. Approval required."
  let detailedMsg :=
    if cfg.DetailedCondition then
      msg ++ "\nCurrent hash: " ++ newHash ++ "\n" ++
        "Approved hash: " ++ currentHash ++ "\n" ++
        "Approve this change by setting " ++ cfg.ApprovalField ++ " to true"
    else msg
  addFatal
    (addCondition rsp
      { typ := "ApprovalRequired", status := false,
        reason := "WaitingForApproval", message := detailedMsg })
    detailedMsg

/-- `saveCurrentHash` (fn.go:462): starting from the request's desired-XR
status, write the new hash at the current-hash path (fatal on failure),
then reset the approval flag to false (failure swallowed), and store the
updated desired XR in the response. -/
def saveCurrentHash (req : Req) (cfg : Config) (hash : String) (rsp : Rsp) :
    Option Unit × Rsp :=
  match SetNestedValue ((getMapField req.dxr "status").getD [])
      (dropStatusDot cfg.CurrentHashField) (.str hash) with
  | .error e =>
    (none, addFatal rsp ("cannot set current hash field " ++
      dropStatusDot cfg.CurrentHashField ++ ": " ++ e))
  | .ok st1 =>
    (some (), { rsp with desired := some (mapInsert req.dxr "status" (.obj
      (match SetNestedValue st1 (dropStatusDot cfg.ApprovalField) (.bool false) with
       | .ok s => s
       | .error _ => st1))) })

/-- `handleApprovedChanges` (fn.go:136): commit the new hash, then emit the
`FunctionSuccess` condition. -/
def handleApprovedChanges (req : Req) (cfg : Config) (rsp : Rsp)
    (newHash : String) : Option Unit × Rsp :=
  match saveCurrentHash req cfg newHash rsp with
  | (none, rsp') => (none, rsp')
  | (some _, rsp') =>
    (some (),
      addCondition rsp'
        { typ := "FunctionSuccess", status := true,
          reason := "Success", message := "Approved successfully" })

/-- `RunFunction` (fn.go:28): the whole invocation.  `initRsp` is the
`response.To` call, `parseInput`/`initializeResponse` are
`initializeFunction`, then hashing/approval processing and the decision. -/
def RunFunction (req : Req) (inp : Input) : Rsp :=
  match processHashingAndApproval req (parseInput inp)
      (initializeResponse req (initRsp req)) with
  | (none, rsp') => rsp'
  | (some (newHash, currentHash, approved), rsp') =>
    if needsApproval approved currentHash newHash then
      handleUnapprovedChanges (parseInput inp) rsp' currentHash newHash
    else (handleApprovedChanges req (parseInput inp) rsp' newHash).2

/-! ## Lemmas: path accessor reads after writes -/

theorem lookup_mapInsert_self (m : JMap) (k : String) (v : Value) :
    List.lookup k (mapInsert m k v) = some v := by
  induction m with
  | nil => simp [mapInsert, List.lookup]
  | cons p t ih =>
    obtain ⟨k', v'⟩ := p
    by_cases h : k' = k
    · simp [mapInsert, h, List.lookup]
    · have hne : (k == k') = false := by
        rw [beq_eq_false_iff_ne]
        exact fun hh => h hh.symm
      simp [mapInsert, h, List.lookup, hne, ih]

theorem lookup_mapInsert_ne (m : JMap) (k k' : String) (v : Value)
    (h : k' ≠ k) : List.lookup k' (mapInsert m k v) = List.lookup k' m := by
  have hne : (k' == k) = false := beq_eq_false_iff_ne.mpr h
  induction m with
  | nil => simp [mapInsert, List.lookup, hne]
  | cons p t ih =>
    obtain ⟨k2, v2⟩ := p
    by_cases h2 : k2 = k
    · subst h2
      simp [mapInsert, List.lookup, hne]
    · simp [mapInsert, h2, List.lookup, ih]

theorem isPrefixOf_cons_self (a : String) (l1 l2 : List String) :
    List.isPrefixOf (a :: l1) (a :: l2) = List.isPrefixOf l1 l2 := by
  simp [List.isPrefixOf]

theorem nil_isPrefixOf_eq (l : List String) :
    List.isPrefixOf ([] : List String) l = true := by
  cases l <;> rfl

theorem getParts_setParts_self :
    ∀ (ps : List String) (m m' : JMap) (v : Value),
      setParts m ps v = .ok m' → ps ≠ [] → getParts (.obj m') ps = some v := by
  intro ps
  induction ps with
  | nil => intro m m' v _ hne; exact absurd rfl hne
  | cons k rest ih =>
    intro m m' v h _
    cases rest with
    | nil =>
      simp only [setParts, Except.ok.injEq] at h
      subst h
      simp [getParts, lookup_mapInsert_self]
    | cons k2 rest2 =>
      simp only [setParts] at h
      split at h
      · rename_i sub heq
        cases hs : setParts sub (k2 :: rest2) v with
        | error e => rw [hs] at h; simp [Except.map] at h
        | ok sub' =>
          rw [hs] at h
          simp only [Except.map, Except.ok.injEq] at h
          subst h
          simp only [getParts, lookup_mapInsert_self]
          exact ih sub sub' v hs (by simp)
      · simp at h
      · cases hs : setParts [] (k2 :: rest2) v with
        | error e => rw [hs] at h; simp [Except.map] at h
        | ok sub' =>
          rw [hs] at h
          simp only [Except.map, Except.ok.injEq] at h
          subst h
          simp only [getParts, lookup_mapInsert_self]
          exact ih [] sub' v hs (by simp)

theorem getParts_setParts_fresh :
    ∀ (qs : List String) (m : JMap) (v : Value) (ps : List String),
      setParts [] qs v = .ok m → ps ≠ [] →
      List.isPrefixOf ps qs = false → List.isPrefixOf qs ps = false →
      getParts (.obj m) ps = none := by
  intro qs
  induction qs with
  | nil =>
    intro m v ps _ _ _ hp2
    rw [nil_isPrefixOf_eq] at hp2
    exact absurd hp2 (by simp)
  | cons q qt ih =>
    intro m v ps h hps hp1 hp2
    cases ps with
    | nil => exact absurd rfl hps
    | cons p pt =>
      by_cases hpq : p = q
      · subst hpq
        rw [isPrefixOf_cons_self] at hp1 hp2
        cases qt with
        | nil =>
          rw [nil_isPrefixOf_eq] at hp2
          exact absurd hp2 (by simp)
        | cons q2 qt2 =>
          cases pt with
          | nil =>
            rw [nil_isPrefixOf_eq] at hp1
            exact absurd hp1 (by simp)
          | cons p2 pt2 =>
            simp only [setParts, List.lookup] at h
            cases hs : setParts [] (q2 :: qt2) v with
            | error e => rw [hs] at h; simp [Except.map] at h
            | ok sub' =>
              rw [hs] at h
              simp only [Except.map, Except.ok.injEq] at h
              subst h
              simp only [getParts, lookup_mapInsert_self]
              exact ih sub' v (p2 :: pt2) hs (by simp) hp1 hp2
      · have hne : (p == q) = false := beq_eq_false_iff_ne.mpr hpq
        cases qt with
        | nil =>
          simp only [setParts, Except.ok.injEq] at h
          subst h
          simp [getParts, mapInsert, List.lookup, hne]
        | cons q2 qt2 =>
          simp only [setParts, List.lookup] at h
          cases hs : setParts [] (q2 :: qt2) v with
          | error e => rw [hs] at h; simp [Except.map] at h
          | ok sub' =>
            rw [hs] at h
            simp only [Except.map, Except.ok.injEq] at h
            subst h
            simp [getParts, mapInsert, List.lookup, hne]

theorem getParts_setParts_other :
    ∀ (ps2 : List String) (m m' : JMap) (v2 : Value) (ps : List String),
      setParts m ps2 v2 = .ok m' →
      List.isPrefixOf ps ps2 = false → List.isPrefixOf ps2 ps = false →
      getParts (.obj m') ps = getParts (.obj m) ps := by
  intro ps2
  induction ps2 with
  | nil =>
    intro m m' v2 ps _ _ hp2
    rw [nil_isPrefixOf_eq] at hp2
    exact absurd hp2 (by simp)
  | cons q qt ih =>
    intro m m' v2 ps h hp1 hp2
    cases ps with
    | nil =>
      rw [nil_isPrefixOf_eq] at hp1
      exact absurd hp1 (by simp)
    | cons p pt =>
      by_cases hpq : p = q
      · subst hpq
        rw [isPrefixOf_cons_self] at hp1 hp2
        cases qt with
        | nil =>
          rw [nil_isPrefixOf_eq] at hp2
          exact absurd hp2 (by simp)
        | cons q2 qt2 =>
          cases pt with
          | nil =>
            rw [nil_isPrefixOf_eq] at hp1
            exact absurd hp1 (by simp)
          | cons p2 pt2 =>
            simp only [setParts] at h
            split at h
            · rename_i sub heq
              cases hs : setParts sub (q2 :: qt2) v2 with
              | error e => rw [hs] at h; simp [Except.map] at h
              | ok sub' =>
                rw [hs] at h
                simp only [Except.map, Except.ok.injEq] at h
                subst h
                simp only [getParts, lookup_mapInsert_self, heq]
                exact ih sub sub' v2 (p2 :: pt2) hs hp1 hp2
            · simp at h
            · rename_i heq
              cases hs : setParts [] (q2 :: qt2) v2 with
              | error e => rw [hs] at h; simp [Except.map] at h
              | ok sub' =>
                rw [hs] at h
                simp only [Except.map, Except.ok.injEq] at h
                subst h
                simp only [getParts, lookup_mapInsert_self, heq]
                exact getParts_setParts_fresh (q2 :: qt2) sub' v2 (p2 :: pt2) hs
                  (by simp) hp1 hp2
      · cases qt with
        | nil =>
          simp only [setParts, Except.ok.injEq] at h
          subst h
          simp only [getParts, lookup_mapInsert_ne _ _ _ _ hpq]
        | cons q2 qt2 =>
          simp only [setParts] at h
          split at h
          · rename_i sub heq
            cases hs : setParts sub (q2 :: qt2) v2 with
            | error e => rw [hs] at h; simp [Except.map] at h
            | ok sub' =>
              rw [hs] at h
              simp only [Except.map, Except.ok.injEq] at h
              subst h
              simp only [getParts, lookup_mapInsert_ne _ _ _ _ hpq]
          · simp at h
          · cases hs : setParts [] (q2 :: qt2) v2 with
            | error e => rw [hs] at h; simp [Except.map] at h
            | ok sub' =>
              rw [hs] at h
              simp only [Except.map, Except.ok.injEq] at h
              subst h
              simp only [getParts, lookup_mapInsert_ne _ _ _ _ hpq]

/-! ## Claim theorems -/

/-- Claim C1: for every document and config for which evaluation reaches the
decision step, the gate decides Halt iff the approval flag is false and the
stored hash is empty or differs from the just-computed hash; in every other
case (in particular whenever the flag is true, regardless of the hashes) it
decides Continue.  The second conjunct ties the boolean to the pipeline:
once `processHashingAndApproval` has produced `(newHash, storedHash,
approved)`, `RunFunction` branches on `needsApproval` alone. -/
theorem C1_gate_decision :
    (∀ (approved : Bool) (currentHash newHash : String),
      needsApproval approved currentHash newHash = true ↔
        (approved = false ∧ (currentHash = "" ∨ currentHash ≠ newHash))) ∧
    (∀ (req : Req) (inp : Input) (nh ch : String) (ap : Bool) (rsp2 : Rsp),
      processHashingAndApproval req (parseInput inp)
          (initializeResponse req (initRsp req)) = (some (nh, ch, ap), rsp2) →
      RunFunction req inp =
        (if needsApproval ap ch nh then
          handleUnapprovedChanges (parseInput inp) rsp2 ch nh
        else (handleApprovedChanges req (parseInput inp) rsp2 nh).2)) := by
  constructor
  · intro a c n
    cases a <;> simp [needsApproval]
  · intro req inp nh ch ap rsp2 h
    unfold RunFunction
    rw [h]

/-- A document whose monitored field holds a non-serializable value. -/
def exDocU : JMap :=
  [("kind", .str "XR"), ("spec", .obj [("resources", .unsupported "chan")])]

/-- Request carrying `exDocU`. -/
def exReqU : Req := { oxr := exDocU, dxr := exDocU, ctx := none }

/-- Input monitoring `spec.resources` with defaults. -/
def exInpRes : Input := { DataField := "spec.resources" }

theorem C1_gate_decision_witness :
    (needsApproval true "x" "x" = true ↔
      (true = false ∧ ("x" = "" ∨ "x" ≠ "x"))) ∧
    RunFunction exReqU exInpRes =
      (if needsApproval false "" "" then
        handleUnapprovedChanges (parseInput exInpRes)
          (processHashingAndApproval exReqU (parseInput exInpRes)
            (initializeResponse exReqU (initRsp exReqU))).2 "" ""
      else (handleApprovedChanges exReqU (parseInput exInpRes)
        (processHashingAndApproval exReqU (parseInput exInpRes)
          (initializeResponse exReqU (initRsp exReqU))).2 "").2) :=
  ⟨C1_gate_decision.1 true "x" "x",
   C1_gate_decision.2 exReqU exInpRes "" "" false _ (by decide)⟩

/-- Claim C8: a value whose canonical serialization fails does not fail the
invocation: `calculateHash` returns the empty string instead of an error,
and the processing step proceeds with that empty hash (its outcome is the
ordinary success tuple, not an error). -/
theorem C8_serialization_failure_swallowed (v : Value)
    (h : marshalValue v = none) :
    calculateHash v = "" ∧
    ∀ (req : Req) (cfg : Config) (rsp : Rsp) (ch : String) (ap : Bool),
      extractDataToHash req cfg rsp = (some v, rsp) →
      getCurrentHash req cfg rsp = (some ch, rsp) →
      checkApprovalStatus req cfg rsp = (some ap, rsp) →
      processHashingAndApproval req cfg rsp = (some ("", ch, ap), rsp) := by
  have h1 : calculateHash v = "" := by unfold calculateHash; rw [h]
  refine ⟨h1, ?_⟩
  intro req cfg rsp ch ap he hg hc
  unfold processHashingAndApproval
  rw [he]
  simp only [hg, hc, h1]

theorem C8_serialization_failure_swallowed_witness :
    calculateHash (.unsupported "chan") = "" ∧
    processHashingAndApproval exReqU (parseInput exInpRes)
        (initializeResponse exReqU (initRsp exReqU)) =
      (some ("", "", false),
        initializeResponse exReqU (initRsp exReqU)) := by
  have hm : marshalValue (.unsupported "chan") = none := rfl
  refine ⟨(C8_serialization_failure_swallowed _ hm).1, ?_⟩
  exact (C8_serialization_failure_swallowed _ hm).2 exReqU (parseInput exInpRes)
    (initializeResponse exReqU (initRsp exReqU)) "" false (by decide) (by decide)
    (by decide)

/-- Claim C9: a monitored path with fewer than two dot segments makes the
invocation fail with the invalid-DataField fatal error before any hashing
or status lookup happens — the response is exactly the initialized response
plus that one fatal result, so nothing was hashed, read or committed; a
path with two or more segments passes the shape check, splitting into a
section and a field. -/
theorem C9_monitored_path_shape (req : Req) (inp : Input) :
    ((splitDot (parseInput inp).DataField).length < 2 →
      RunFunction req inp =
        addFatal (initializeResponse req (initRsp req))
          ("invalid DataField format: " ++ (parseInput inp).DataField ++
            ", expected section.field (e.g. spec.resources)")) ∧
    (2 ≤ (splitDot (parseInput inp).DataField).length →
      ∃ sec fld, splitN2 (parseInput inp).DataField = [sec, fld]) := by
  constructor
  · intro h
    have hsplit : ∃ x, splitN2 (parseInput inp).DataField = [x] := by
      unfold splitN2
      rcases hs : splitDot (parseInput inp).DataField with _ | ⟨x, _ | ⟨y, t⟩⟩
      · exact ⟨_, rfl⟩
      · exact ⟨x, rfl⟩
      · rw [hs] at h; exact absurd h (by simp only [List.length_cons]; omega)
    obtain ⟨x, hx⟩ := hsplit
    have hex : extractDataToHash req (parseInput inp)
        (initializeResponse req (initRsp req)) =
        (none, addFatal (initializeResponse req (initRsp req))
          ("invalid DataField format: " ++ (parseInput inp).DataField ++
            ", expected section.field (e.g. spec.resources)")) := by
      unfold extractDataToHash
      rw [hx]
    have hproc : processHashingAndApproval req (parseInput inp)
        (initializeResponse req (initRsp req)) =
        (none, addFatal (initializeResponse req (initRsp req))
          ("invalid DataField format: " ++ (parseInput inp).DataField ++
            ", expected section.field (e.g. spec.resources)")) := by
      unfold processHashingAndApproval
      rw [hex]
    unfold RunFunction
    rw [hproc]
  · intro h
    unfold splitN2
    rcases hs : splitDot (parseInput inp).DataField with _ | ⟨x, _ | ⟨y, t⟩⟩
    · rw [hs] at h; exact absurd h (by simp)
    · rw [hs] at h; exact absurd h (by simp)
    · exact ⟨x, String.intercalate "." (y :: t), rfl⟩

/-- Input with a one-segment monitored path. -/
def exInpNoDot : Input := { DataField := "specresources" }

theorem C9_monitored_path_shape_witness :
    (RunFunction exReqU exInpNoDot =
      addFatal (initializeResponse exReqU (initRsp exReqU))
        ("invalid DataField format: " ++ (parseInput exInpNoDot).DataField ++
          ", expected section.field (e.g. spec.resources)")) ∧
    (∃ sec fld, splitN2 (parseInput exInpRes).DataField = [sec, fld]) :=
  ⟨(C9_monitored_path_shape exReqU exInpNoDot).1 (by decide),
   (C9_monitored_path_shape exReqU exInpRes).2 (by decide)⟩

/-- Claim C7: absence of a value at the current-hash path reads as the
empty stored hash and absence at the approval-flag path reads as an
unapproved flag, neither being an error (the response is untouched); a
present value of the wrong type (non-string hash, non-boolean flag) is a
terminal TypeMismatch failure with a fatal result. -/
theorem C7_status_reads (req : Req) (cfg : Config) (rsp : Rsp) :
    ((GetNestedValue (getXRAndStatus req).1 (dropStatusDot cfg.CurrentHashField) = .ok none →
        getCurrentHash req cfg rsp = (some "", rsp)) ∧
      (∀ s, GetNestedValue (getXRAndStatus req).1 (dropStatusDot cfg.CurrentHashField) =
          .ok (some (.str s)) →
        getCurrentHash req cfg rsp = (some s, rsp)) ∧
      (∀ v, GetNestedValue (getXRAndStatus req).1 (dropStatusDot cfg.CurrentHashField) =
          .ok (some v) → (∀ s, v ≠ .str s) →
        getCurrentHash req cfg rsp =
          (none, addFatal rsp ("current hash field " ++
            dropStatusDot cfg.CurrentHashField ++ " is not a string")))) ∧
    ((GetNestedValue (getXRAndStatus req).1 (dropStatusDot cfg.ApprovalField) = .ok none →
        checkApprovalStatus req cfg rsp = (some false, rsp)) ∧
      (∀ b, GetNestedValue (getXRAndStatus req).1 (dropStatusDot cfg.ApprovalField) =
          .ok (some (.bool b)) →
        checkApprovalStatus req cfg rsp = (some b, rsp)) ∧
      (∀ v, GetNestedValue (getXRAndStatus req).1 (dropStatusDot cfg.ApprovalField) =
          .ok (some v) → (∀ b, v ≠ .bool b) →
        checkApprovalStatus req cfg rsp =
          (none, addFatal rsp ("approval field " ++
            dropStatusDot cfg.ApprovalField ++ " is not a boolean")))) := by
  refine ⟨⟨?_, ?_, ?_⟩, ?_, ?_, ?_⟩
  · intro h; unfold getCurrentHash; rw [h]
  · intro s h; unfold getCurrentHash; rw [h]
  · intro v h hne
    unfold getCurrentHash
    rw [h]
    cases v with
    | str s => exact absurd rfl (hne s)
    | num n => rfl
    | bool b => rfl
    | null => rfl
    | obj m => rfl
    | arr l => rfl
    | unsupported t => rfl
  · intro h; unfold checkApprovalStatus; rw [h]
  · intro b h; unfold checkApprovalStatus; rw [h]
  · intro v h hne
    unfold checkApprovalStatus
    rw [h]
    cases v with
    | bool b => exact absurd rfl (hne b)
    | num n => rfl
    | str s => rfl
    | null => rfl
    | obj m => rfl
    | arr l => rfl
    | unsupported t => rfl

/-- Request whose status has a wrong-typed hash field and a boolean flag. -/
def exReqTypes : Req :=
  { oxr := [("kind", .str "XR"),
      ("status", .obj [("currentHash", .num 5), ("approved", .bool true)])],
    dxr := [], ctx := none }

/-- A default config (defaults of `parseInput` on a bare input). -/
def exCfg : Config := parseInput { DataField := "spec.resources" }

theorem C7_status_reads_witness :
    (getCurrentHash exReqU exCfg (initRsp exReqU) = (some "", initRsp exReqU)) ∧
    (checkApprovalStatus exReqTypes exCfg (initRsp exReqTypes) =
      (some true, initRsp exReqTypes)) ∧
    (getCurrentHash exReqTypes exCfg (initRsp exReqTypes) =
      (none, addFatal (initRsp exReqTypes)
        ("current hash field " ++ dropStatusDot exCfg.CurrentHashField ++
          " is not a string"))) :=
  ⟨(C7_status_reads exReqU exCfg (initRsp exReqU)).1.1 (by decide),
   (C7_status_reads exReqTypes exCfg (initRsp exReqTypes)).2.2.1 true (by decide),
   (C7_status_reads exReqTypes exCfg (initRsp exReqTypes)).1.2.2 (.num 5) (by decide)
     (fun s h => Value.noConfusion h)⟩

/-- Claim C6: on Halt the renderer appends the condition
`{ApprovalRequired, false, WaitingForApproval}` together with a separate
fatal result, both carrying the configured approval message, extended with
the literal current hash, the literal stored hash and the unblock
instruction naming the approval-flag path exactly when the detail flag is
set; on Continue (a successful commit) it appends
`{FunctionSuccess, true, Success}` with message "Approved successfully"
on top of the status writer's response. -/
theorem C6_renderer (req : Req) (cfg : Config) (rsp : Rsp)
    (currentHash newHash : String) :
    (handleUnapprovedChanges cfg rsp currentHash newHash =
      addFatal
        (addCondition rsp
          { typ := "ApprovalRequired", status := false,
            reason := "WaitingForApproval",
            message :=
              if cfg.DetailedCondition then
                (cfg.ApprovalMessage.getD "Changes detected. Approval required.") ++
                  "\nCurrent hash: " ++ newHash ++ "\n" ++
                  "Approved hash: " ++ currentHash ++ "\n" ++
                  "Approve this change by setting " ++ cfg.ApprovalField ++ " to true"
              else cfg.ApprovalMessage.getD "Changes detected. Approval required." })
        (if cfg.DetailedCondition then
          (cfg.ApprovalMessage.getD "Changes detected. Approval required.") ++
            "\nCurrent hash: " ++ newHash ++ "\n" ++
            "Approved hash: " ++ currentHash ++ "\n" ++
            "Approve this change by setting " ++ cfg.ApprovalField ++ " to true"
        else cfg.ApprovalMessage.getD "Changes detected. Approval required.")) ∧
    (∀ rsp', saveCurrentHash req cfg newHash rsp = (some (), rsp') →
      handleApprovedChanges req cfg rsp newHash =
        (some (), addCondition rsp'
          { typ := "FunctionSuccess", status := true, reason := "Success",
            message := "Approved successfully" })) := by
  constructor
  · rfl
  · intro rsp' h
    unfold handleApprovedChanges
    rw [h]

/-- Request with kind, monitored data and an approved flag in status. -/
def exDocOK : JMap :=
  [("kind", .str "XR"),
   ("spec", .obj [("resources", .obj [("test", .str "data")])]),
   ("status", .obj [("approved", .bool true)])]

/-- Request carrying `exDocOK` on both sides. -/
def exReqOK : Req := { oxr := exDocOK, dxr := exDocOK, ctx := none }

theorem C6_renderer_witness :
    (handleUnapprovedChanges exCfg (initRsp exReqOK) "old" "new" =
      addFatal
        (addCondition (initRsp exReqOK)
          { typ := "ApprovalRequired", status := false,
            reason := "WaitingForApproval",
            message :=
              if exCfg.DetailedCondition then
                (exCfg.ApprovalMessage.getD "Changes detected. Approval required.") ++
                  "\nCurrent hash: " ++ "new" ++ "\n" ++
                  "Approved hash: " ++ "old" ++ "\n" ++
                  "Approve this change by setting " ++ exCfg.ApprovalField ++ " to true"
              else exCfg.ApprovalMessage.getD "Changes detected. Approval required." })
        (if exCfg.DetailedCondition then
          (exCfg.ApprovalMessage.getD "Changes detected. Approval required.") ++
            "\nCurrent hash: " ++ "new" ++ "\n" ++
            "Approved hash: " ++ "old" ++ "\n" ++
            "Approve this change by setting " ++ exCfg.ApprovalField ++ " to true"
        else exCfg.ApprovalMessage.getD "Changes detected. Approval required.")) ∧
    handleApprovedChanges exReqOK exCfg (initRsp exReqOK) "new" =
      (some (), addCondition (saveCurrentHash exReqOK exCfg "new" (initRsp exReqOK)).2
        { typ := "FunctionSuccess", status := true, reason := "Success",
          message := "Approved successfully" }) :=
  ⟨(C6_renderer exReqOK exCfg (initRsp exReqOK) "old" "new").1,
   (C6_renderer exReqOK exCfg (initRsp exReqOK) "old" "new").2 _ (by decide)⟩

/-- Claim C10: inside the commit, a failure to write the hash at the
current-hash path is fatal and aborts the commit (no desired-state update,
no success condition), while the same kind of failure on the approval-flag
reset is swallowed: the commit succeeds with the status exactly as it was
after the hash write (the flag untouched) and the Continue success
condition is still emitted. -/
theorem C10_commit_error_asymmetry (req : Req) (cfg : Config) (hash : String)
    (rsp : Rsp) :
    (∀ e, SetNestedValue ((getMapField req.dxr "status").getD [])
        (dropStatusDot cfg.CurrentHashField) (.str hash) = .error e →
      saveCurrentHash req cfg hash rsp =
        (none, addFatal rsp ("cannot set current hash field " ++
          dropStatusDot cfg.CurrentHashField ++ ": " ++ e)) ∧
      handleApprovedChanges req cfg rsp hash =
        (none, addFatal rsp ("cannot set current hash field " ++
          dropStatusDot cfg.CurrentHashField ++ ": " ++ e))) ∧
    (∀ st1 e, SetNestedValue ((getMapField req.dxr "status").getD [])
        (dropStatusDot cfg.CurrentHashField) (.str hash) = .ok st1 →
      SetNestedValue st1 (dropStatusDot cfg.ApprovalField) (.bool false) = .error e →
      saveCurrentHash req cfg hash rsp =
        (some (), { rsp with desired := some (mapInsert req.dxr "status" (.obj st1)) }) ∧
      handleApprovedChanges req cfg rsp hash =
        (some (), addCondition
          { rsp with desired := some (mapInsert req.dxr "status" (.obj st1)) }
          { typ := "FunctionSuccess", status := true, reason := "Success",
            message := "Approved successfully" })) := by
  constructor
  · intro e h
    have hs : saveCurrentHash req cfg hash rsp =
        (none, addFatal rsp ("cannot set current hash field " ++
          dropStatusDot cfg.CurrentHashField ++ ": " ++ e)) := by
      unfold saveCurrentHash
      rw [h]
    refine ⟨hs, ?_⟩
    unfold handleApprovedChanges
    rw [hs]
  · intro st1 e h1 h2
    have hs : saveCurrentHash req cfg hash rsp =
        (some (), { rsp with desired := some (mapInsert req.dxr "status" (.obj st1)) }) := by
      unfold saveCurrentHash
      rw [h1]
      simp only [h2]
    refine ⟨hs, ?_⟩
    unfold handleApprovedChanges
    rw [hs]

/-- Request whose desired status blocks the hash path at `a` (a non-map). -/
def exReqBlockHash : Req :=
  { oxr := [], dxr := [("status", .obj [("a", .num 1)])], ctx := none }

/-- Config whose hash path runs through the blocked `a`. -/
def exCfgBlockHash : Config :=
  parseInput { DataField := "spec.resources", CurrentHashField := some "status.a.b" }

/-- Config whose approval-flag path runs through the blocked `a` while the
hash path is clear. -/
def exCfgBlockFlag : Config :=
  parseInput { DataField := "spec.resources", ApprovalField := some "status.a.b" }

theorem C10_commit_error_asymmetry_witness :
    (saveCurrentHash exReqBlockHash exCfgBlockHash "h" (initRsp exReqBlockHash) =
      (none, addFatal (initRsp exReqBlockHash)
        ("cannot set current hash field " ++
          dropStatusDot exCfgBlockHash.CurrentHashField ++ ": " ++
          "key \"a\" exists but is not a map"))) ∧
    (saveCurrentHash exReqBlockHash exCfgBlockFlag "h" (initRsp exReqBlockHash) =
      (some (), { initRsp exReqBlockHash with
        desired := some (mapInsert exReqBlockHash.dxr "status"
          (.obj [("a", .num 1), ("currentHash", .str "h")])) })) :=
  by
  have hb1 : SetNestedValue ((getMapField exReqBlockHash.dxr "status").getD [])
      (dropStatusDot exCfgBlockHash.CurrentHashField) (.str "h") =
      .error "key \"a\" exists but is not a map" := by decide
  have hf1 : SetNestedValue ((getMapField exReqBlockHash.dxr "status").getD [])
      (dropStatusDot exCfgBlockFlag.CurrentHashField) (.str "h") =
      .ok [("a", .num 1), ("currentHash", .str "h")] := by decide
  have hf2 : SetNestedValue [("a", .num 1), ("currentHash", .str "h")]
      (dropStatusDot exCfgBlockFlag.ApprovalField) (.bool false) =
      .error "key \"a\" exists but is not a map" := by decide
  exact ⟨((C10_commit_error_asymmetry exReqBlockHash exCfgBlockHash "h"
      (initRsp exReqBlockHash)).1 _ hb1).1,
    ((C10_commit_error_asymmetry exReqBlockHash exCfgBlockFlag "h"
      (initRsp exReqBlockHash)).2 _ _ hf1 hf2).1⟩

/-- Claim C5: when the monitored section is absent (or not a mapping), or
the monitored field is absent from its section, the invocation fails with
the FieldNotFound fatal error and the response is exactly the initialized
response plus that fatal result — in particular its desired document (and
so its status subtree) is exactly what initialization produced: no part of
the status was committed. -/
theorem C5_missing_field_fatal (req : Req) (inp : Input) (sec fld : String)
    (hsplit : splitN2 (parseInput inp).DataField = [sec, fld]) :
    (getMapField req.dxr sec = none →
      RunFunction req inp =
        addFatal (initializeResponse req (initRsp req))
          ("cannot get " ++ sec ++ " from desired XR") ∧
      (RunFunction req inp).desired = (initializeResponse req (initRsp req)).desired) ∧
    (∀ sd, getMapField req.dxr sec = some sd → GetNestedValue sd fld = .ok none →
      RunFunction req inp =
        addFatal (initializeResponse req (initRsp req))
          ("field " ++ sec ++ "." ++ fld ++ " not found in resource") ∧
      (RunFunction req inp).desired = (initializeResponse req (initRsp req)).desired) := by
  constructor
  · intro h
    have hex : extractDataToHash req (parseInput inp)
        (initializeResponse req (initRsp req)) =
        (none, addFatal (initializeResponse req (initRsp req))
          ("cannot get " ++ sec ++ " from desired XR")) := by
      unfold extractDataToHash
      rw [hsplit]
      simp only [h]
    have hrun : RunFunction req inp =
        addFatal (initializeResponse req (initRsp req))
          ("cannot get " ++ sec ++ " from desired XR") := by
      unfold RunFunction processHashingAndApproval
      rw [hex]
    exact ⟨hrun, by rw [hrun]; rfl⟩
  · intro sd hsec hfld
    have hex : extractDataToHash req (parseInput inp)
        (initializeResponse req (initRsp req)) =
        (none, addFatal (initializeResponse req (initRsp req))
          ("field " ++ sec ++ "." ++ fld ++ " not found in resource")) := by
      unfold extractDataToHash
      rw [hsplit]
      simp only [hsec, hfld]
    have hrun : RunFunction req inp =
        addFatal (initializeResponse req (initRsp req))
          ("field " ++ sec ++ "." ++ fld ++ " not found in resource") := by
      unfold RunFunction processHashingAndApproval
      rw [hex]
    exact ⟨hrun, by rw [hrun]; rfl⟩

/-- Document with a spec that lacks the monitored field. -/
def exDocNoField : JMap :=
  [("kind", .str "XR"), ("spec", .obj [("other", .str "x")])]

/-- Request carrying `exDocNoField`. -/
def exReqNoField : Req := { oxr := exDocNoField, dxr := exDocNoField, ctx := none }

/-- Document without any spec section. -/
def exDocNoSpec : JMap := [("kind", .str "XR")]

/-- Request carrying `exDocNoSpec`. -/
def exReqNoSpec : Req := { oxr := exDocNoSpec, dxr := exDocNoSpec, ctx := none }

theorem C5_missing_field_fatal_witness :
    (RunFunction exReqNoSpec exInpRes =
      addFatal (initializeResponse exReqNoSpec (initRsp exReqNoSpec))
        ("cannot get " ++ "spec" ++ " from desired XR")) ∧
    (RunFunction exReqNoField exInpRes =
      addFatal (initializeResponse exReqNoField (initRsp exReqNoField))
        ("field " ++ "spec" ++ "." ++ "resources" ++ " not found in resource")) :=
  ⟨(((C5_missing_field_fatal exReqNoSpec exInpRes "spec" "resources" (by decide)).1)
      (by decide)).1,
   (((C5_missing_field_fatal exReqNoField exInpRes "spec" "resources" (by decide)).2)
      [("other", .str "x")] (by decide) (by decide)).1⟩

theorem ParseNestedKey_ok_ne_nil (k : String) (ps : List String)
    (h : ParseNestedKey k = .ok ps) : ps ≠ [] := by
  unfold ParseNestedKey at h
  by_cases hc : List.filter (fun p => decide (p ≠ "")) (splitDot k) = []
  · rw [if_pos hc] at h
    exact absurd h (by simp)
  · rw [if_neg hc] at h
    simp only [Except.ok.injEq] at h
    rw [← h]
    exact hc

/-- Request for the C3 counterexample: the approval-flag path `status.a` is
a proper prefix of the current-hash path `status.a.b`; the flag is granted
in the observed status while the desired XR carries no status yet. -/
def exReqPfx : Req :=
  { oxr := [("kind", .str "XR"), ("spec", .obj [("test", .str "data")]),
      ("status", .obj [("a", .bool true)])],
    dxr := [("kind", .str "XR"), ("spec", .obj [("test", .str "data")])],
    ctx := none }

/-- Input for the C3 counterexample. -/
def exInpPfx : Input :=
  { DataField := "spec.test", ApprovalField := some "status.a",
    CurrentHashField := some "status.a.b" }

/-- Claim C3, as stated, is false: this invocation decides Continue
(approval flag true), the commit succeeds, yet the committed value at the
configured current-hash path is absent — the flag reset overwrote the
intermediate map holding the just-written hash — so it does not equal the
just-computed current hash. -/
theorem C3_commit_readback_counterexample :
    (processHashingAndApproval exReqPfx (parseInput exInpPfx)
        (initializeResponse exReqPfx (initRsp exReqPfx))).1 =
      some (calculateHash (.str "data"), "", true) ∧
    needsApproval true "" (calculateHash (.str "data")) = false ∧
    GetNestedValue
        ((getMapField ((RunFunction exReqPfx exInpPfx).desired.getD []) "status").getD [])
        (dropStatusDot (parseInput exInpPfx).CurrentHashField) = .ok none ∧
    (.ok none : Except String (Option Value)) ≠
      .ok (some (.str (calculateHash (.str "data")))) := by
  refine ⟨by decide, by decide, by decide, ?_⟩
  intro h
  simp at h

theorem SetNestedValue_ok_setParts (root : JMap) (key : String) (v : Value)
    (ps : List String) (m' : JMap)
    (hp : ParseNestedKey key = .ok ps)
    (h : SetNestedValue root key v = .ok m') : setParts root ps v = .ok m' := by
  unfold SetNestedValue at h
  rw [hp] at h
  exact h

theorem GetNestedValue_eq_getParts (data : JMap) (key : String) (ps : List String)
    (hp : ParseNestedKey key = .ok ps) :
    GetNestedValue data key = .ok (getParts (.obj data) ps) := by
  unfold GetNestedValue
  rw [hp]
  rfl

/-- Claim C3, amended: for every invocation that decides Continue, when
neither of the two parsed status paths is a prefix of the other and both
commit writes succeed, the committed status holds the just-computed hash at
the current-hash path and `false` at the approval-flag path (the approval
is single-use), and — provided the committed hash is non-empty — a later
gate evaluation against this stored hash decides Halt only if the computed
hash changed.  (The original claim fails when one configured path is a
prefix of the other, when a commit write fails, or when the committed hash
is the empty string; see the counterexample.) -/
theorem C3_commit_readback_amended (req : Req) (inp : Input)
    (nh ch : String) (ap : Bool) (rsp2 : Rsp) (hps aps : List String)
    (st1 st2 : JMap)
    (hparse1 : ParseNestedKey (dropStatusDot (parseInput inp).CurrentHashField) = .ok hps)
    (hparse2 : ParseNestedKey (dropStatusDot (parseInput inp).ApprovalField) = .ok aps)
    (hpre1 : List.isPrefixOf hps aps = false)
    (hpre2 : List.isPrefixOf aps hps = false)
    (hproc : processHashingAndApproval req (parseInput inp)
        (initializeResponse req (initRsp req)) = (some (nh, ch, ap), rsp2))
    (hcont : needsApproval ap ch nh = false)
    (hw1 : SetNestedValue ((getMapField req.dxr "status").getD [])
        (dropStatusDot (parseInput inp).CurrentHashField) (.str nh) = .ok st1)
    (hw2 : SetNestedValue st1
        (dropStatusDot (parseInput inp).ApprovalField) (.bool false) = .ok st2) :
    RunFunction req inp =
      addCondition { rsp2 with desired := some (mapInsert req.dxr "status" (.obj st2)) }
        { typ := "FunctionSuccess", status := true, reason := "Success",
          message := "Approved successfully" } ∧
    GetNestedValue st2 (dropStatusDot (parseInput inp).CurrentHashField) =
      .ok (some (.str nh)) ∧
    GetNestedValue st2 (dropStatusDot (parseInput inp).ApprovalField) =
      .ok (some (.bool false)) ∧
    (nh ≠ "" → ∀ (ap2 : Bool) (nh2 : String),
      needsApproval ap2 nh nh2 = true → nh2 ≠ nh) := by
  have hsp1 : setParts ((getMapField req.dxr "status").getD []) hps (.str nh) = .ok st1 :=
    SetNestedValue_ok_setParts _ _ _ _ _ hparse1 hw1
  have hsp2 : setParts st1 aps (.bool false) = .ok st2 :=
    SetNestedValue_ok_setParts _ _ _ _ _ hparse2 hw2
  refine ⟨?_, ?_, ?_, ?_⟩
  · unfold RunFunction
    rw [hproc]
    simp only [hcont, Bool.false_eq_true, if_false]
    unfold handleApprovedChanges saveCurrentHash
    rw [hw1]
    simp only [hw2]
  · rw [GetNestedValue_eq_getParts _ _ _ hparse1]
    have e1 : getParts (.obj st2) hps = getParts (.obj st1) hps :=
      getParts_setParts_other aps st1 st2 (.bool false) hps hsp2 hpre1 hpre2
    rw [e1,
      getParts_setParts_self hps _ _ _ hsp1 (ParseNestedKey_ok_ne_nil _ _ hparse1)]
  · rw [GetNestedValue_eq_getParts _ _ _ hparse2]
    rw [getParts_setParts_self aps _ _ _ hsp2 (ParseNestedKey_ok_ne_nil _ _ hparse2)]
  · intro hne ap2 nh2 hna
    cases ap2 with
    | true => simp [needsApproval] at hna
    | false =>
      simp only [needsApproval, Bool.not_false, Bool.true_and, Bool.or_eq_true,
        beq_iff_eq, bne_iff_ne] at hna
      rcases hna with hna | hna
      · exact absurd hna hne
      · exact fun heq => hna heq.symm

theorem C3_commit_readback_amended_witness :
    GetNestedValue
        [("approved", .bool false),
         ("currentHash", .str "e1d7c49f3a04e1ec1a5b150ec68041c903cd75fda52aa1239fd586439ef1154b")]
        (dropStatusDot (parseInput exInpRes).CurrentHashField) =
      .ok (some (.str "e1d7c49f3a04e1ec1a5b150ec68041c903cd75fda52aa1239fd586439ef1154b")) ∧
    GetNestedValue
        [("approved", .bool false),
         ("currentHash", .str "e1d7c49f3a04e1ec1a5b150ec68041c903cd75fda52aa1239fd586439ef1154b")]
        (dropStatusDot (parseInput exInpRes).ApprovalField) =
      .ok (some (.bool false)) ∧
    ("" : String) ≠ "e1d7c49f3a04e1ec1a5b150ec68041c903cd75fda52aa1239fd586439ef1154b" := by
  have h := C3_commit_readback_amended exReqOK exInpRes
    "e1d7c49f3a04e1ec1a5b150ec68041c903cd75fda52aa1239fd586439ef1154b" "" true
    (processHashingAndApproval exReqOK (parseInput exInpRes)
      (initializeResponse exReqOK (initRsp exReqOK))).2
    ["currentHash"] ["approved"]
    [("approved", .bool true),
     ("currentHash", .str "e1d7c49f3a04e1ec1a5b150ec68041c903cd75fda52aa1239fd586439ef1154b")]
    [("approved", .bool false),
     ("currentHash", .str "e1d7c49f3a04e1ec1a5b150ec68041c903cd75fda52aa1239fd586439ef1154b")]
    (by decide) (by decide) (by decide) (by decide) (by decide) (by decide)
    (by decide) (by decide)
  exact ⟨h.2.1, h.2.2.1, h.2.2.2 (by decide) false "" (by decide)⟩

theorem lookup_initializeXRMeta (oxr dxr : JMap) (k : String)
    (h3 : k ≠ "kind") (h4 : k ≠ "apiVersion") (h5 : k ≠ "metadata") :
    List.lookup k (initializeXRMeta oxr dxr) = List.lookup k dxr := by
  unfold initializeXRMeta setName
  split
  · rw [lookup_mapInsert_ne _ _ _ _ h5, lookup_mapInsert_ne _ _ _ _ h3,
      lookup_mapInsert_ne _ _ _ _ h4]
  · rfl

theorem lookup_initializeAndCopyData (oxr dxr : JMap) (k : String)
    (h2 : k ≠ "spec") (h3 : k ≠ "kind") (h4 : k ≠ "apiVersion")
    (h5 : k ≠ "metadata") :
    List.lookup k (initializeAndCopyData oxr dxr) = List.lookup k dxr := by
  unfold initializeAndCopyData
  split
  · split
    · rw [lookup_mapInsert_ne _ _ _ _ h2]
      exact lookup_initializeXRMeta oxr dxr k h3 h4 h5
    · exact lookup_initializeXRMeta oxr dxr k h3 h4 h5
  · exact lookup_initializeXRMeta oxr dxr k h3 h4 h5

theorem preserveContext_desired (req : Req) (rsp : Rsp) :
    (preserveContext req rsp).desired = rsp.desired := by
  unfold preserveContext
  split <;> rfl

theorem lookup_initializeResponse_desired (req : Req) (k : String)
    (h1 : k ≠ "status") (h2 : k ≠ "spec") (h3 : k ≠ "kind")
    (h4 : k ≠ "apiVersion") (h5 : k ≠ "metadata") :
    List.lookup k ((initializeResponse req (initRsp req)).desired.getD []) =
      List.lookup k req.dxr := by
  unfold initializeResponse
  rw [preserveContext_desired]
  unfold propagateDesiredXR getXRAndStatus
  simp only [Option.getD_some]
  split
  · rw [lookup_mapInsert_ne _ _ _ _ h1]
    exact lookup_initializeAndCopyData _ _ k h2 h3 h4 h5
  · exact lookup_initializeAndCopyData _ _ k h2 h3 h4 h5

theorem extractDataToHash_desired (req : Req) (cfg : Config) (rsp : Rsp) :
    ((extractDataToHash req cfg rsp).2).desired = rsp.desired := by
  unfold extractDataToHash
  split
  · split
    · rfl
    · split <;> rfl
  · rfl

theorem getCurrentHash_desired (req : Req) (cfg : Config) (rsp : Rsp) :
    ((getCurrentHash req cfg rsp).2).desired = rsp.desired := by
  unfold getCurrentHash
  split <;> rfl

theorem checkApprovalStatus_desired (req : Req) (cfg : Config) (rsp : Rsp) :
    ((checkApprovalStatus req cfg rsp).2).desired = rsp.desired := by
  unfold checkApprovalStatus
  split <;> rfl

theorem processHashingAndApproval_desired (req : Req) (cfg : Config) (rsp : Rsp) :
    ((processHashingAndApproval req cfg rsp).2).desired = rsp.desired := by
  unfold processHashingAndApproval
  split
  · rename_i rsp' heq
    have h := extractDataToHash_desired req cfg rsp
    rw [heq] at h
    exact h
  · rename_i data rsp' heq
    have h1 := extractDataToHash_desired req cfg rsp
    rw [heq] at h1
    split
    · rename_i rsp2 heq2
      have h2 := getCurrentHash_desired req cfg rsp'
      rw [heq2] at h2
      rw [h2, h1]
    · rename_i ch rsp2 heq2
      have h2 := getCurrentHash_desired req cfg rsp'
      rw [heq2] at h2
      split
      · rename_i rsp3 heq3
        have h3 := checkApprovalStatus_desired req cfg rsp2
        rw [heq3] at h3
        rw [h3, h2, h1]
      · rename_i ap rsp3 heq3
        have h3 := checkApprovalStatus_desired req cfg rsp2
        rw [heq3] at h3
        rw [h3, h2, h1]

/-- Request whose proposed (desired) spec differs from the observed spec. -/
def exReqSpecDiff : Req :=
  { oxr := [("kind", .str "XR"), ("spec", .obj [("test", .str "observed")])],
    dxr := [("kind", .str "XR"), ("spec", .obj [("test", .str "proposed")])],
    ctx := none }

/-- Input monitoring `spec.test` with defaults. -/
def exInpTest : Input := { DataField := "spec.test" }

/-- Claim C4, as stated, is false: on this (halting) invocation the core
replaces the proposed spec with the observed spec
(`initializeAndCopyData` copies the observed spec over the desired one),
so a field outside the status subtree of the output differs from what the
caller supplied as the proposed document. -/
theorem C4_frame_counterexample :
    List.lookup "spec" ((RunFunction exReqSpecDiff exInpTest).desired.getD []) =
      some (.obj [("test", .str "observed")]) ∧
    List.lookup "spec" exReqSpecDiff.dxr = some (.obj [("test", .str "proposed")]) ∧
    Value.obj [("test", .str "observed")] ≠ .obj [("test", .str "proposed")] := by
  refine ⟨by decide, by decide, by decide⟩

theorem handleApprovedChanges_lookup (req : Req) (cfg : Config) (rsp : Rsp)
    (nh : String) (k : String) (hk : k ≠ "status") :
    List.lookup k (((handleApprovedChanges req cfg rsp nh).2).desired.getD []) =
      List.lookup k (rsp.desired.getD []) ∨
    List.lookup k (((handleApprovedChanges req cfg rsp nh).2).desired.getD []) =
      List.lookup k req.dxr := by
  unfold handleApprovedChanges saveCurrentHash
  cases hw : SetNestedValue ((getMapField req.dxr "status").getD [])
      (dropStatusDot cfg.CurrentHashField) (.str nh) with
  | error e => left; rfl
  | ok st1 =>
    right
    simp only [Option.getD_some]
    exact lookup_mapInsert_ne _ _ _ _ hk

/-- Claim C4, amended: on a Continue decision whose commit succeeds, the
output document agrees with the proposed document on every top-level field
except `status`; on every other invocation (halt and error paths included)
it agrees with the proposed document on every top-level field other than
`status`, `spec`, `kind`, `apiVersion` and `metadata` — the core replaces
the proposed spec by the observed one when the latter is a non-empty map,
and fills kind/apiVersion/metadata.name from the observed document when
the proposed document has no kind. -/
theorem C4_frame_amended (req : Req) (inp : Input) :
    (∀ (nh ch : String) (ap : Bool) (rsp2 : Rsp) (st1 : JMap),
      processHashingAndApproval req (parseInput inp)
          (initializeResponse req (initRsp req)) = (some (nh, ch, ap), rsp2) →
      needsApproval ap ch nh = false →
      SetNestedValue ((getMapField req.dxr "status").getD [])
          (dropStatusDot (parseInput inp).CurrentHashField) (.str nh) = .ok st1 →
      ∀ k, k ≠ "status" →
        List.lookup k ((RunFunction req inp).desired.getD []) =
          List.lookup k req.dxr) ∧
    (∀ k, k ≠ "status" → k ≠ "spec" → k ≠ "kind" → k ≠ "apiVersion" →
      k ≠ "metadata" →
      List.lookup k ((RunFunction req inp).desired.getD []) =
        List.lookup k req.dxr) := by
  constructor
  · intro nh ch ap rsp2 st1 hproc hcont hw1 k hk
    unfold RunFunction
    rw [hproc]
    simp only [hcont, Bool.false_eq_true, if_false]
    unfold handleApprovedChanges saveCurrentHash
    rw [hw1]
    simp only [Option.getD_some]
    exact lookup_mapInsert_ne _ _ _ _ hk
  · intro k h1 h2 h3 h4 h5
    unfold RunFunction
    split
    · rename_i rsp' heq
      have h := processHashingAndApproval_desired req (parseInput inp)
        (initializeResponse req (initRsp req))
      rw [heq] at h
      rw [h]
      exact lookup_initializeResponse_desired req k h1 h2 h3 h4 h5
    · rename_i nh ch ap rsp' heq
      have h := processHashingAndApproval_desired req (parseInput inp)
        (initializeResponse req (initRsp req))
      rw [heq] at h
      split
      · have hd : (handleUnapprovedChanges (parseInput inp) rsp' ch nh).desired =
            rsp'.desired := rfl
        rw [hd, h]
        exact lookup_initializeResponse_desired req k h1 h2 h3 h4 h5
      · rcases handleApprovedChanges_lookup req (parseInput inp) rsp' nh k h1
          with hc | hc
        · rw [hc, h]
          exact lookup_initializeResponse_desired req k h1 h2 h3 h4 h5
        · exact hc

theorem C4_frame_amended_witness :
    (List.lookup "spec" ((RunFunction exReqOK exInpRes).desired.getD []) =
      List.lookup "spec" exReqOK.dxr) ∧
    (List.lookup "widgets" ((RunFunction exReqOK exInpRes).desired.getD []) =
      List.lookup "widgets" exReqOK.dxr) :=
  ⟨(C4_frame_amended exReqOK exInpRes).1
      "e1d7c49f3a04e1ec1a5b150ec68041c903cd75fda52aa1239fd586439ef1154b" "" true
      (processHashingAndApproval exReqOK (parseInput exInpRes)
        (initializeResponse exReqOK (initRsp exReqOK))).2
      [("approved", .bool true),
       ("currentHash", .str "e1d7c49f3a04e1ec1a5b150ec68041c903cd75fda52aa1239fd586439ef1154b")]
      (by decide) (by decide) (by decide) "spec" (by decide),
   (C4_frame_amended exReqOK exInpRes).2 "widgets" (by decide) (by decide)
      (by decide) (by decide) (by decide)⟩

/-- Key absent from a key-value list (used by the well-formedness check). -/
def keyNotIn (k : String) : List (String × Value) → Bool
  | [] => true
  | (k2, _) :: t => !(k == k2) && keyNotIn k t

mutual

/-- Well-formed document value: every mapping (at any depth) has pairwise
distinct keys — true of every value decoded from real Go maps. -/
def wfValue : Value → Bool
  | .arr xs => wfList xs
  | .obj m => wfPairs m
  | _ => true

/-- `wfValue` on array elements. -/
def wfList : List Value → Bool
  | [] => true
  | x :: t => wfValue x && wfList t

/-- `wfValue` on mapping entries, with the distinct-keys check. -/
def wfPairs : List (String × Value) → Bool
  | [] => true
  | (k, v) :: t => keyNotIn k t && (wfValue v && wfPairs t)

end

mutual

/-- "Differ only in the ordering of mapping keys": the two values are equal
except that the entry list of any mapping, at any depth, may be reordered. -/
def permKeys : Value → Value → Prop
  | .str a, .str b => a = b
  | .num a, .num b => a = b
  | .bool a, .bool b => a = b
  | .null, .null => True
  | .unsupported a, .unsupported b => a = b
  | .arr xs, .arr ys => permList xs ys
  | .obj m1, .obj m2 => ∃ mid, permMap m1 mid ∧ List.Perm mid m2
  | _, _ => False

/-- Pointwise `permKeys` on sequence elements (order preserved). -/
def permList : List Value → List Value → Prop
  | [], [] => True
  | x :: xs, y :: ys => permKeys x y ∧ permList xs ys
  | _, _ => False

/-- Pointwise `permKeys` on mapping entries (same keys, same order). -/
def permMap : List (String × Value) → List (String × Value) → Prop
  | [], [] => True
  | (k1, v1) :: t1, (k2, v2) :: t2 => k1 = k2 ∧ permKeys v1 v2 ∧ permMap t1 t2
  | _, _ => False

end

theorem keyNotIn_not_mem (k : String) :
    ∀ (t : List (String × Value)), keyNotIn k t = true → k ∉ t.map Prod.fst := by
  intro t
  induction t with
  | nil => intro _ h; simp at h
  | cons p t ih =>
    obtain ⟨k2, v2⟩ := p
    intro h hmem
    simp only [keyNotIn, Bool.and_eq_true, Bool.not_eq_true', beq_eq_false_iff_ne] at h
    simp only [List.map_cons, List.mem_cons] at hmem
    rcases hmem with hmem | hmem
    · exact h.1 hmem
    · exact ih h.2 hmem

theorem wfPairs_nodup : ∀ (m : List (String × Value)), wfPairs m = true →
    (m.map Prod.fst).Nodup := by
  intro m
  induction m with
  | nil => intro _; simp
  | cons p t ih =>
    obtain ⟨k, v⟩ := p
    intro h
    simp only [wfPairs, Bool.and_eq_true] at h
    simp only [List.map_cons, List.nodup_cons]
    exact ⟨keyNotIn_not_mem k t h.1, ih h.2.2⟩

theorem insertByKey_perm (p : String × String) :
    ∀ (l : List (String × String)), List.Perm (insertByKey p l) (p :: l) := by
  intro l
  induction l with
  | nil => exact List.Perm.refl _
  | cons q t ih =>
    unfold insertByKey
    split
    · exact List.Perm.refl _
    · exact (List.Perm.cons q ih).trans (List.Perm.swap p q t)

theorem sortByKey_perm :
    ∀ (l : List (String × String)), List.Perm (sortByKey l) l := by
  intro l
  induction l with
  | nil => exact List.Perm.refl _
  | cons p t ih =>
    unfold sortByKey
    exact (insertByKey_perm p (sortByKey t)).trans (List.Perm.cons p ih)

theorem insertByKey_sorted (p : String × String) :
    ∀ (l : List (String × String)),
      List.Pairwise (fun a b => a.1 ≤ b.1) l →
      List.Pairwise (fun a b => a.1 ≤ b.1) (insertByKey p l) := by
  intro l
  induction l with
  | nil => intro _; simp [insertByKey]
  | cons q t ih =>
    intro h
    rw [List.pairwise_cons] at h
    obtain ⟨hq, ht⟩ := h
    unfold insertByKey
    split
    · rename_i hle
      rw [List.pairwise_cons]
      constructor
      · intro x hx
        rcases List.mem_cons.mp hx with hx | hx
        · rw [hx]; exact hle
        · exact le_trans hle (hq x hx)
      · rw [List.pairwise_cons]
        exact ⟨hq, ht⟩
    · rename_i hgt
      rw [List.pairwise_cons]
      constructor
      · intro x hx
        have hmem := (insertByKey_perm p t).mem_iff.mp hx
        rcases List.mem_cons.mp hmem with hx2 | hx2
        · rw [hx2]; exact le_of_not_le hgt
        · exact hq x hx2
      · exact ih ht

theorem sortByKey_sorted :
    ∀ (l : List (String × String)),
      List.Pairwise (fun a b => a.1 ≤ b.1) (sortByKey l) := by
  intro l
  induction l with
  | nil => simp [sortByKey]
  | cons p t ih =>
    unfold sortByKey
    exact insertByKey_sorted p (sortByKey t) ih

theorem sorted_perm_nodup_keys_eq :
    ∀ (l1 l2 : List (String × String)), List.Perm l1 l2 →
      List.Pairwise (fun a b => a.1 ≤ b.1) l1 →
      List.Pairwise (fun a b => a.1 ≤ b.1) l2 →
      (l1.map Prod.fst).Nodup → l1 = l2 := by
  intro l1
  induction l1 with
  | nil =>
    intro l2 hperm _ _ _
    exact (List.Perm.eq_nil hperm.symm).symm
  | cons a t1 ih =>
    intro l2 hperm hs1 hs2 hnd
    cases l2 with
    | nil => exact absurd (List.Perm.eq_nil hperm) (by simp)
    | cons b t2 =>
      rw [List.pairwise_cons] at hs1 hs2
      have hab : a = b := by
        have ha2 : a ∈ b :: t2 := hperm.mem_iff.mp (List.mem_cons_self a t1)
        have hb1 : b ∈ a :: t1 := hperm.symm.mem_iff.mp (List.mem_cons_self b t2)
        have hle1 : a.1 ≤ b.1 := by
          rcases List.mem_cons.mp hb1 with h | h
          · rw [h]
          · exact hs1.1 b h
        have hle2 : b.1 ≤ a.1 := by
          rcases List.mem_cons.mp ha2 with h | h
          · rw [h]
          · exact hs2.1 a h
        have hkey : a.1 = b.1 := le_antisymm hle1 hle2
        rcases List.mem_cons.mp hb1 with h | h
        · exact h.symm
        · -- b lives in t1 with the same key as a: contradicts key nodup
          exfalso
          simp only [List.map_cons, List.nodup_cons] at hnd
          exact hnd.1 (hkey ▸ (List.mem_map_of_mem Prod.fst h))
      subst hab
      have htail : List.Perm t1 t2 := List.Perm.cons_inv hperm
      have : t1 = t2 := by
        apply ih t2 htail hs1.2 hs2.2
        simp only [List.map_cons, List.nodup_cons] at hnd
        exact hnd.2
      rw [this]

theorem marshalPairs_cons (k : String) (v : Value) (t : List (String × Value)) :
    marshalPairs ((k, v) :: t) =
      match marshalValue v, marshalPairs t with
      | some s, some rest => some ((k, s) :: rest)
      | _, _ => none := by
  simp only [marshalPairs]
  cases marshalValue v <;> cases marshalPairs t <;> rfl

theorem marshalPairs_keys :
    ∀ (m : List (String × Value)) (ps : List (String × String)),
      marshalPairs m = some ps → ps.map Prod.fst = m.map Prod.fst := by
  intro m
  induction m with
  | nil =>
    intro ps h
    simp only [marshalPairs, Option.some.injEq] at h
    rw [← h]
    rfl
  | cons p t ih =>
    obtain ⟨k, v⟩ := p
    intro ps h
    rw [marshalPairs_cons] at h
    cases hv : marshalValue v with
    | none => rw [hv] at h; simp at h
    | some s =>
      rw [hv] at h
      cases ht : marshalPairs t with
      | none => rw [ht] at h; simp at h
      | some rest =>
        rw [ht] at h
        simp only [Option.some.injEq] at h
        rw [← h]
        simp only [List.map_cons]
        rw [ih rest ht]

theorem marshalPairs_perm :
    ∀ (m1 m2 : List (String × Value)), List.Perm m1 m2 →
      (marshalPairs m1 = none → marshalPairs m2 = none) ∧
      (∀ ps1, marshalPairs m1 = some ps1 →
        ∃ ps2, marshalPairs m2 = some ps2 ∧ List.Perm ps1 ps2) := by
  intro m1 m2 hperm
  induction hperm with
  | nil => exact ⟨fun h => h, fun ps1 h => ⟨ps1, h, List.Perm.refl _⟩⟩
  | cons x hp ih =>
    rename_i l1 l2
    obtain ⟨k, v⟩ := x
    rw [marshalPairs_cons, marshalPairs_cons]
    cases hv : marshalValue v with
    | none => exact ⟨fun _ => rfl, fun ps1 h => by simp at h⟩
    | some s =>
      cases ht1 : marshalPairs l1 with
      | none =>
        rw [ih.1 ht1]
        exact ⟨fun _ => rfl, fun ps1 h => by simp at h⟩
      | some rest =>
        obtain ⟨rest2, hrest2, hpr⟩ := ih.2 rest ht1
        rw [hrest2]
        constructor
        · intro h; simp at h
        · intro ps1 h
          simp only [Option.some.injEq] at h
          exact ⟨(k, s) :: rest2, rfl, h ▸ List.Perm.cons (k, s) hpr⟩
  | swap x y t =>
    obtain ⟨kx, vx⟩ := x
    obtain ⟨ky, vy⟩ := y
    rw [marshalPairs_cons, marshalPairs_cons, marshalPairs_cons, marshalPairs_cons]
    cases hvx : marshalValue vx with
    | none =>
      cases hvy : marshalValue vy with
      | none => exact ⟨fun _ => rfl, fun ps1 h => by simp at h⟩
      | some sy =>
        cases ht : marshalPairs t with
        | none => exact ⟨fun _ => rfl, fun ps1 h => by simp at h⟩
        | some rest => exact ⟨fun _ => rfl, fun ps1 h => by simp at h⟩
    | some sx =>
      cases hvy : marshalValue vy with
      | none => exact ⟨fun _ => rfl, fun ps1 h => by simp at h⟩
      | some sy =>
        cases ht : marshalPairs t with
        | none => exact ⟨fun _ => rfl, fun ps1 h => by simp at h⟩
        | some rest =>
          constructor
          · intro h; simp at h
          · intro ps1 h
            simp only [Option.some.injEq] at h
            exact ⟨(kx, sx) :: (ky, sy) :: rest, rfl,
              h ▸ List.Perm.swap (kx, sx) (ky, sy) rest⟩
  | trans h12 h23 ih1 ih2 =>
    constructor
    · intro h
      exact ih2.1 (ih1.1 h)
    · intro ps1 h
      obtain ⟨ps2, hp2, hperm2⟩ := ih1.2 ps1 h
      obtain ⟨ps3, hp3, hperm3⟩ := ih2.2 ps2 hp2
      exact ⟨ps3, hp3, hperm2.trans hperm3⟩

theorem permMap_keys :
    ∀ (m1 m2 : List (String × Value)), permMap m1 m2 →
      m1.map Prod.fst = m2.map Prod.fst := by
  intro m1
  induction m1 with
  | nil =>
    intro m2 h
    cases m2 with
    | nil => rfl
    | cons p t => exact False.elim h
  | cons p t1 ih =>
    obtain ⟨k1, v1⟩ := p
    intro m2 h
    cases m2 with
    | nil => exact False.elim h
    | cons q t2 =>
      obtain ⟨k2, v2⟩ := q
      obtain ⟨hk, _, ht⟩ := h
      simp only [List.map_cons]
      rw [hk, ih t2 ht]

mutual

theorem marshalValue_permKeys :
    ∀ (v1 v2 : Value), permKeys v1 v2 → wfValue v1 = true →
      marshalValue v1 = marshalValue v2
  | .str a, .str b, h, _ => by rw [show a = b from h]
  | .num a, .num b, h, _ => by rw [show a = b from h]
  | .bool a, .bool b, h, _ => by rw [show a = b from h]
  | .null, .null, _, _ => rfl
  | .unsupported a, .unsupported b, h, _ => by rw [show a = b from h]
  | .arr xs, .arr ys, h, hwf => by
    have e := marshalArr_permList xs ys h hwf
    simp only [marshalValue, e]
  | .obj m1, .obj m2, h, hwf => by
    obtain ⟨mid, hpm, hperm⟩ := h
    have hw : wfPairs m1 = true := hwf
    have heq : marshalPairs m1 = marshalPairs mid :=
      marshalPairs_permMap m1 mid hpm hw
    simp only [marshalValue]
    rw [heq]
    cases hmp : marshalPairs mid with
    | none => rw [(marshalPairs_perm mid m2 hperm).1 hmp]
    | some ps =>
      obtain ⟨ps2, hps2, hpp⟩ := (marshalPairs_perm mid m2 hperm).2 ps hmp
      rw [hps2]
      have hnodup : ((sortByKey ps).map Prod.fst).Nodup := by
        have hk1 : ps.map Prod.fst = mid.map Prod.fst := marshalPairs_keys mid ps hmp
        have hk2 : m1.map Prod.fst = mid.map Prod.fst := permMap_keys m1 mid hpm
        have hnd : (m1.map Prod.fst).Nodup := wfPairs_nodup m1 hw
        have hnd2 : (ps.map Prod.fst).Nodup := by
          rw [hk1, ← hk2]
          exact hnd
        have hp : List.Perm ((sortByKey ps).map Prod.fst) (ps.map Prod.fst) :=
          (sortByKey_perm ps).map Prod.fst
        exact (hp.nodup_iff).mpr hnd2
      have hperm2 : List.Perm (sortByKey ps) (sortByKey ps2) :=
        ((sortByKey_perm ps).trans hpp).trans (sortByKey_perm ps2).symm
      have hse : sortByKey ps = sortByKey ps2 :=
        sorted_perm_nodup_keys_eq _ _ hperm2 (sortByKey_sorted ps)
          (sortByKey_sorted ps2) hnodup
      simp only [Option.map_some']
      rw [hse]
  | .str _, .num _, h, _ => False.elim h
  | .str _, .bool _, h, _ => False.elim h
  | .str _, .null, h, _ => False.elim h
  | .str _, .obj _, h, _ => False.elim h
  | .str _, .arr _, h, _ => False.elim h
  | .str _, .unsupported _, h, _ => False.elim h
  | .num _, .str _, h, _ => False.elim h
  | .num _, .bool _, h, _ => False.elim h
  | .num _, .null, h, _ => False.elim h
  | .num _, .obj _, h, _ => False.elim h
  | .num _, .arr _, h, _ => False.elim h
  | .num _, .unsupported _, h, _ => False.elim h
  | .bool _, .str _, h, _ => False.elim h
  | .bool _, .num _, h, _ => False.elim h
  | .bool _, .null, h, _ => False.elim h
  | .bool _, .obj _, h, _ => False.elim h
  | .bool _, .arr _, h, _ => False.elim h
  | .bool _, .unsupported _, h, _ => False.elim h
  | .null, .str _, h, _ => False.elim h
  | .null, .num _, h, _ => False.elim h
  | .null, .bool _, h, _ => False.elim h
  | .null, .obj _, h, _ => False.elim h
  | .null, .arr _, h, _ => False.elim h
  | .null, .unsupported _, h, _ => False.elim h
  | .obj _, .str _, h, _ => False.elim h
  | .obj _, .num _, h, _ => False.elim h
  | .obj _, .bool _, h, _ => False.elim h
  | .obj _, .null, h, _ => False.elim h
  | .obj _, .arr _, h, _ => False.elim h
  | .obj _, .unsupported _, h, _ => False.elim h
  | .arr _, .str _, h, _ => False.elim h
  | .arr _, .num _, h, _ => False.elim h
  | .arr _, .bool _, h, _ => False.elim h
  | .arr _, .null, h, _ => False.elim h
  | .arr _, .obj _, h, _ => False.elim h
  | .arr _, .unsupported _, h, _ => False.elim h
  | .unsupported _, .str _, h, _ => False.elim h
  | .unsupported _, .num _, h, _ => False.elim h
  | .unsupported _, .bool _, h, _ => False.elim h
  | .unsupported _, .null, h, _ => False.elim h
  | .unsupported _, .obj _, h, _ => False.elim h
  | .unsupported _, .arr _, h, _ => False.elim h

theorem marshalArr_permList :
    ∀ (l1 l2 : List Value), permList l1 l2 → wfList l1 = true →
      marshalArr l1 = marshalArr l2
  | [], [], _, _ => rfl
  | [], _ :: _, h, _ => False.elim h
  | _ :: _, [], h, _ => False.elim h
  | [x], [y], h, hwf => by
    have hw : wfValue x = true := by
      simp only [wfList, Bool.and_eq_true] at hwf
      exact hwf.1
    have e := marshalValue_permKeys x y h.1 hw
    simp only [marshalArr, e]
  | [x], y :: y2 :: t2, h, _ => False.elim h.2
  | x :: x2 :: t1, [y], h, _ => False.elim h.2
  | x :: x2 :: t1, y :: y2 :: t2, h, hwf => by
    obtain ⟨hxy, hrest⟩ := h
    simp only [wfList, Bool.and_eq_true] at hwf
    have e1 := marshalValue_permKeys x y hxy hwf.1
    have e2 := marshalArr_permList (x2 :: t1) (y2 :: t2) hrest
      (by simp only [wfList, Bool.and_eq_true]; exact hwf.2)
    simp only [marshalArr, e1, e2]

theorem marshalPairs_permMap :
    ∀ (m1 m2 : List (String × Value)), permMap m1 m2 → wfPairs m1 = true →
      marshalPairs m1 = marshalPairs m2
  | [], [], _, _ => rfl
  | [], _ :: _, h, _ => False.elim h
  | _ :: _, [], h, _ => False.elim h
  | (k1, v1) :: t1, (k2, v2) :: t2, h, hwf => by
    obtain ⟨hk, hv, ht⟩ := h
    simp only [wfPairs, Bool.and_eq_true] at hwf
    have e1 := marshalValue_permKeys v1 v2 hv hwf.2.1
    have e2 := marshalPairs_permMap t1 t2 ht hwf.2.2
    subst hk
    simp only [marshalPairs, e1, e2]

end

/-- Claim C2, as stated, is false in its "changing any leaf value changes
the hash" part: two distinct non-serializable leaf values both hash to the
empty string, so changing one into the other leaves the hash unchanged. -/
theorem C2_leaf_change_counterexample :
    Value.unsupported "chanA" ≠ Value.unsupported "chanB" ∧
    calculateHash (.unsupported "chanA") = calculateHash (.unsupported "chanB") :=
  ⟨by decide, by decide⟩

/-- Claim C2, amended: for well-formed monitored values (distinct mapping
keys, as in any real Go map), the hash is a deterministic function of the
logical value — two values that differ only in the ordering of mapping
keys, at any depth, hash to the same string; sequence element order is
preserved (a concrete reordering changes the hash); and changing a leaf
value can change the hash (concrete example), but not always: every
non-serializable value hashes to the empty string, so such leaf changes
are invisible (see the counterexample); SHA-256 collisions are the other
in-principle exception. -/
theorem C2_hash_of_logical_value :
    (∀ (v1 v2 : Value), permKeys v1 v2 → wfValue v1 = true →
      calculateHash v1 = calculateHash v2) ∧
    calculateHash (.arr [.str "a", .str "b"]) ≠
      calculateHash (.arr [.str "b", .str "a"]) ∧
    calculateHash (.obj [("k", .str "x")]) ≠
      calculateHash (.obj [("k", .str "y")]) := by
  refine ⟨?_, by decide, by decide⟩
  intro v1 v2 h hwf
  unfold calculateHash
  rw [marshalValue_permKeys v1 v2 h hwf]

theorem C2_hash_of_logical_value_witness :
    calculateHash (.obj [("a", .null), ("b", .obj [("x", .num 1), ("y", .bool true)])]) =
      calculateHash (.obj [("b", .obj [("y", .bool true), ("x", .num 1)]), ("a", .null)]) ∧
    calculateHash (.arr [.str "a", .str "b"]) ≠
      calculateHash (.arr [.str "b", .str "a"]) := by
  have hLeaf1 : permKeys (.num 1) (.num 1) := rfl
  have hLeaf2 : permKeys (.bool true) (.bool true) := rfl
  have hNull : permKeys .null .null := trivial
  have hInnerMap : permMap [("x", .num 1), ("y", .bool true)]
      [("x", .num 1), ("y", .bool true)] :=
    ⟨rfl, hLeaf1, rfl, hLeaf2, trivial⟩
  have hInner : permKeys (.obj [("x", .num 1), ("y", .bool true)])
      (.obj [("y", .bool true), ("x", .num 1)]) :=
    ⟨[("x", .num 1), ("y", .bool true)], hInnerMap, by decide⟩
  have hMap : permMap [("a", .null), ("b", .obj [("x", .num 1), ("y", .bool true)])]
      [("a", .null), ("b", .obj [("y", .bool true), ("x", .num 1)])] :=
    ⟨rfl, hNull, rfl, hInner, trivial⟩
  have hp : permKeys
      (.obj [("a", .null), ("b", .obj [("x", .num 1), ("y", .bool true)])])
      (.obj [("b", .obj [("y", .bool true), ("x", .num 1)]), ("a", .null)]) :=
    ⟨[("a", .null), ("b", .obj [("y", .bool true), ("x", .num 1)])], hMap, by decide⟩
  exact ⟨C2_hash_of_logical_value.1 _ _ hp (by decide),
    C2_hash_of_logical_value.2.1⟩
